import Mathlib

/-!
Verification of the CRUD test-harness layer of the ShipInAssignment
repository.

This file shallowly embeds, from the repository's TypeScript/JavaScript
sources:

* the PostgreSQL-backed `DatabaseService` (src/utils/constants.ts, second
  document) together with the table constraints of
  `CREATE_TABLES_QUERIES` (src/utils/DatabaseModels.ts): stores are lists
  of rows, SERIAL ids are counters, `CURRENT_TIMESTAMP` is an explicit
  `now : Nat` argument, thrown JavaScript/SQL errors are the `.error` side
  of `Except String`;
* `DatabaseConnection.transaction` (src/unnamed/part_004, first document)
  as a queue-ordered client with BEGIN/COMMIT/ROLLBACK snapshot semantics;
* the `DatabaseTestData` generators (src/utils/GrpcClient.ts, second
  document), with `Date.now()` and `Math.random()` passed as explicit
  parameters;
* the order-status vocabularies of the RPC layer (`STATUS`,
  src/utils/constants.ts) and of the DB layer (`OrderStatus`,
  src/utils/DatabaseModels.ts);
* the request object built by `GrpcService.updateUser`
  (src/unnamed/part_004, second document) and the mock gRPC server
  handlers (src/server/simple-grpc-server.js), over a small JSON value
  model with JavaScript truthiness and spread semantics.

Modeling conventions: SQL NULL for an omitted optional text column is not
distinguished from the empty string, and VARCHAR length limits are not
modeled; no claim below depends on either.
-/

namespace ShipIn

/-- JavaScript `String(x).padStart(n, c)`. -/
def padStart (s : String) (n : Nat) (c : Char) : String :=
  String.mk (List.replicate (n - s.length) c) ++ s

/-! ## The users table -/

/-- The eleven insertable columns of the `users` table (`id`, `created_at`
and `updated_at` are store-managed). All are VARCHAR/TEXT. -/
inductive UserCol where
  | username
  | email
  | password
  | first_name
  | last_name
  | phone
  | address
  | city
  | state
  | zip_code
  | country
deriving DecidableEq

/-- The data columns of one `users` row, and also the shape of the `User`
input object of src/utils/DatabaseModels.ts (without id/timestamps). -/
structure UserData where
  username : String
  email : String
  password : String
  first_name : String
  last_name : String
  phone : String
  address : String
  city : String
  state : String
  zip_code : String
  country : String
deriving DecidableEq

def UserData.get (u : UserData) : UserCol → String
  | .username => u.username
  | .email => u.email
  | .password => u.password
  | .first_name => u.first_name
  | .last_name => u.last_name
  | .phone => u.phone
  | .address => u.address
  | .city => u.city
  | .state => u.state
  | .zip_code => u.zip_code
  | .country => u.country

def UserData.set (u : UserData) (c : UserCol) (v : String) : UserData :=
  match c with
  | .username => { u with username := v }
  | .email => { u with email := v }
  | .password => { u with password := v }
  | .first_name => { u with first_name := v }
  | .last_name => { u with last_name := v }
  | .phone => { u with phone := v }
  | .address => { u with address := v }
  | .city => { u with city := v }
  | .state => { u with state := v }
  | .zip_code => { u with zip_code := v }
  | .country => { u with country := v }

/-- Keys a `Partial<User>` update object can carry. -/
inductive UserKey where
  | col (c : UserCol)
  | id
  | created_at
  | updated_at
deriving DecidableEq

/-- A stored row of the `users` table. -/
structure UserRow where
  id : Nat
  data : UserData
  created_at : Nat
  updated_at : Nat
deriving DecidableEq

/-! ## The products table -/

/-- SQL parameter/column values for the typed columns of `products`. -/
inductive Val where
  | str (s : String)
  | num (q : ℚ)
  | bool (b : Bool)
deriving DecidableEq

/-- The nine insertable columns of the `products` table. -/
inductive ProductCol where
  | name
  | description
  | price
  | category
  | brand
  | stock_quantity
  | sku
  | image_url
  | is_active
deriving DecidableEq

/-- The data columns of one `products` row (the `Product` input shape). -/
structure ProductData where
  name : String
  description : String
  price : ℚ
  category : String
  brand : String
  stock_quantity : Int
  sku : String
  image_url : String
  is_active : Bool
deriving DecidableEq

def ProductData.getCol (p : ProductData) : ProductCol → Val
  | .name => .str p.name
  | .description => .str p.description
  | .price => .num p.price
  | .category => .str p.category
  | .brand => .str p.brand
  | .stock_quantity => .num p.stock_quantity
  | .sku => .str p.sku
  | .image_url => .str p.image_url
  | .is_active => .bool p.is_active

/-- Assign one column; `none` when the store would reject the value's type
(INTEGER columns only accept integral numbers, and so on). -/
def ProductData.setCol (p : ProductData) (c : ProductCol) (v : Val) :
    Option ProductData :=
  match c, v with
  | .name, .str s => some { p with name := s }
  | .description, .str s => some { p with description := s }
  | .price, .num q => some { p with price := q }
  | .category, .str s => some { p with category := s }
  | .brand, .str s => some { p with brand := s }
  | .stock_quantity, .num q =>
      if q.den = 1 then some { p with stock_quantity := q.num } else none
  | .sku, .str s => some { p with sku := s }
  | .image_url, .str s => some { p with image_url := s }
  | .is_active, .bool b => some { p with is_active := b }
  | _, _ => none

/-- Keys a `Partial<Product>` update object can carry. -/
inductive ProductKey where
  | col (c : ProductCol)
  | id
  | created_at
  | updated_at
deriving DecidableEq

/-- A stored row of the `products` table. -/
structure ProductRow where
  id : Nat
  data : ProductData
  created_at : Nat
  updated_at : Nat
deriving DecidableEq

/-! ## Orders, order items, the store -/

/-- DB-layer order status enum (src/utils/DatabaseModels.ts). -/
inductive OrderStatus where
  | PENDING
  | CONFIRMED
  | SHIPPED
  | DELIVERED
  | CANCELLED
deriving DecidableEq

def OrderStatus.toStr : OrderStatus → String
  | .PENDING => "pending"
  | .CONFIRMED => "confirmed"
  | .SHIPPED => "shipped"
  | .DELIVERED => "delivered"
  | .CANCELLED => "cancelled"

/-- The string values of the DB-layer enum, in declaration order. -/
def OrderStatus.values : List String :=
  [OrderStatus.PENDING.toStr, OrderStatus.CONFIRMED.toStr,
   OrderStatus.SHIPPED.toStr, OrderStatus.DELIVERED.toStr,
   OrderStatus.CANCELLED.toStr]

/-- RPC-layer `STATUS` object of src/utils/constants.ts, as (key, value)
pairs in declaration order. -/
def STATUS : List (String × String) :=
  [("PENDING", "pending"), ("PROCESSING", "processing"),
   ("SHIPPED", "shipped"), ("DELIVERED", "delivered"),
   ("CANCELLED", "cancelled")]

/-- A stored row of the `orders` table. -/
structure OrderRow where
  id : Nat
  user_id : Nat
  order_number : String
  total_amount : ℚ
  status : String
  shipping_address : String
  billing_address : String
  payment_method : String
  created_at : Nat
  updated_at : Nat
deriving DecidableEq

/-- The `Order` input shape (id/timestamps store-managed). -/
structure OrderInput where
  user_id : Nat
  order_number : String
  total_amount : ℚ
  status : OrderStatus
  shipping_address : String
  billing_address : String
  payment_method : String
deriving DecidableEq

/-- A stored row of the `order_items` table. -/
structure OrderItemRow where
  id : Nat
  order_id : Nat
  product_id : Nat
  quantity : Int
  unit_price : ℚ
  total_price : ℚ
deriving DecidableEq

/-- The `OrderItem` input shape. -/
structure OrderItemInput where
  order_id : Nat
  product_id : Nat
  quantity : Int
  unit_price : ℚ
  total_price : ℚ
deriving DecidableEq

/-- The four tables plus the four SERIAL sequences. -/
structure Store where
  users : List UserRow
  products : List ProductRow
  orders : List OrderRow
  order_items : List OrderItemRow
  nextUserId : Nat
  nextProductId : Nat
  nextOrderId : Nat
  nextOrderItemId : Nat
deriving DecidableEq

/-- The state right after `initializeDatabase` on a fresh database. -/
def emptyStore : Store :=
  { users := [], products := [], orders := [], order_items := [],
    nextUserId := 1, nextProductId := 1, nextOrderId := 1, nextOrderItemId := 1 }

/-! ## DatabaseService (src/utils/constants.ts, second document)

Every operation returns its result (`Except String` for the ones whose SQL
or JS code can throw) together with the store after the call; a thrown
error always leaves the store as it was. -/

namespace DatabaseService

def usernames (st : Store) : List String := st.users.map (fun r => r.data.username)

def emails (st : Store) : List String := st.users.map (fun r => r.data.email)

def skus (st : Store) : List String := st.products.map (fun r => r.data.sku)

def orderNumbers (st : Store) : List String := st.orders.map (fun o => o.order_number)

/-- `createUser`: INSERT .. RETURNING *; the UNIQUE constraints on
`username` and `email` reject a duplicate with a store-level error. -/
def createUser (now : Nat) (st : Store) (u : UserData) :
    Except String UserRow × Store :=
  if u.username ∈ usernames st ∨ u.email ∈ emails st then
    (.error "duplicate key value violates unique constraint", st)
  else
    let row : UserRow := ⟨st.nextUserId, u, now, now⟩
    (.ok row, { st with users := st.users ++ [row], nextUserId := st.nextUserId + 1 })

/-- `getUserById`: SELECT * FROM users WHERE id = $1, `rows[0] || null`. -/
def getUserById (st : Store) (id : Nat) : Option UserRow :=
  st.users.find? (fun r => r.id == id)

/-- `deleteUser`: DELETE FROM users WHERE id = $1 RETURNING id; returns
whether a row matched. ON DELETE CASCADE removes the user's orders and,
transitively, their order items. -/
def deleteUser (st : Store) (id : Nat) : Bool × Store :=
  if st.users.any (fun r => r.id == id) then
    let deadOrders := st.orders.filter (fun o => o.user_id == id)
    (true,
     { st with
        users := st.users.filter (fun r => !(r.id == id)),
        orders := st.orders.filter (fun o => !(o.user_id == id)),
        order_items := st.order_items.filter
          (fun it => deadOrders.all (fun o => !(it.order_id == o.id))) })
  else (false, st)

/-- The source's key filter in `updateUser`:
`Object.keys(updates).filter(key => key !== 'id' && key !== 'created_at')`. -/
def userUpdateFields (updates : List (UserKey × String)) : List UserKey :=
  (updates.map Prod.fst).filter
    (fun k => !(k == UserKey.id) && !(k == UserKey.created_at))

/-- The source's value filter in `updateUser`:
`Object.values(updates).filter((_, index) => fields[index])`. A JavaScript
array index past the end yields `undefined` (falsy) and every kept field
name is a nonempty string (truthy), so exactly the first `fields.length`
values survive. -/
def userUpdateValues (updates : List (UserKey × String)) : List String :=
  (updates.map Prod.snd).take (userUpdateFields updates).length

/-- Apply the SET pairs of the generated UPDATE statement to one row's
data columns. -/
def applyUserSet (u : UserData) : List (UserKey × String) → UserData
  | [] => u
  | (.col c, v) :: rest => applyUserSet (u.set c v) rest
  | (_, _) :: rest => applyUserSet u rest

/-- Effect of the UPDATE statement on one `users` row: the WHERE clause
selects by id; a selected row gets the SET pairs plus
`updated_at = CURRENT_TIMESTAMP`. -/
def userRowUpdate (now id : Nat) (assigns : List (UserKey × String))
    (r : UserRow) : UserRow :=
  if r.id == id then
    { r with data := applyUserSet r.data assigns, updated_at := now }
  else r

/-- `updateUser`: with no updatable key the source returns
`getUserById(id)` without issuing any UPDATE; otherwise it runs
`UPDATE users SET <fields> , updated_at = CURRENT_TIMESTAMP WHERE id = $1
RETURNING *` and returns `rows[0] || null`. The store rejects a repeated
assignment to `updated_at` and any UPDATE that would break the UNIQUE
constraints. -/
def updateUser (now : Nat) (st : Store) (id : Nat)
    (updates : List (UserKey × String)) :
    Except String (Option UserRow) × Store :=
  let fields := userUpdateFields updates
  let values := userUpdateValues updates
  if fields.isEmpty then (.ok (getUserById st id), st)
  else if UserKey.updated_at ∈ fields then
    (.error "multiple assignments to same column", st)
  else
    let assigns := fields.zip values
    let upd := userRowUpdate now id assigns
    let newUsers := st.users.map upd
    if (newUsers.map (fun r => r.data.username)).Nodup ∧
       (newUsers.map (fun r => r.data.email)).Nodup then
      (.ok ((getUserById st id).map upd), { st with users := newUsers })
    else (.error "duplicate key value violates unique constraint", st)

/-- `createProduct`: INSERT .. RETURNING *; UNIQUE constraint on `sku`. -/
def createProduct (now : Nat) (st : Store) (p : ProductData) :
    Except String ProductRow × Store :=
  if p.sku ∈ skus st then
    (.error "duplicate key value violates unique constraint", st)
  else
    let row : ProductRow := ⟨st.nextProductId, p, now, now⟩
    (.ok row,
     { st with products := st.products ++ [row], nextProductId := st.nextProductId + 1 })

/-- `getProductById`. -/
def getProductById (st : Store) (id : Nat) : Option ProductRow :=
  st.products.find? (fun r => r.id == id)

/-- `deleteProduct`; cascade removes the product's order items. -/
def deleteProduct (st : Store) (id : Nat) : Bool × Store :=
  if st.products.any (fun r => r.id == id) then
    (true,
     { st with
        products := st.products.filter (fun r => !(r.id == id)),
        order_items := st.order_items.filter (fun it => !(it.product_id == id)) })
  else (false, st)

/-- Key filter of `updateProduct` (same idiom as `updateUser`). -/
def productUpdateFields (updates : List (ProductKey × Val)) : List ProductKey :=
  (updates.map Prod.fst).filter
    (fun k => !(k == ProductKey.id) && !(k == ProductKey.created_at))

/-- Value filter of `updateProduct` (same idiom as `updateUser`). -/
def productUpdateValues (updates : List (ProductKey × Val)) : List Val :=
  (updates.map Prod.snd).take (productUpdateFields updates).length

/-- Apply the SET pairs to one product row's data; `none` when the store
rejects a value's type. -/
def applyProductSet (p : ProductData) : List (ProductKey × Val) → Option ProductData
  | [] => some p
  | (.col c, v) :: rest =>
      match p.setCol c v with
      | some p' => applyProductSet p' rest
      | none => none
  | (_, _) :: rest => applyProductSet p rest

/-- Effect of the UPDATE statement on one `products` row (`none` when the
store rejects a value's type). -/
def productRowUpdate (now id : Nat) (assigns : List (ProductKey × Val))
    (r : ProductRow) : Option ProductRow :=
  if r.id == id then
    (applyProductSet r.data assigns).map
      (fun d => { r with data := d, updated_at := now })
  else some r

/-- `updateProduct` (same structure as `updateUser`). -/
def updateProduct (now : Nat) (st : Store) (id : Nat)
    (updates : List (ProductKey × Val)) :
    Except String (Option ProductRow) × Store :=
  let fields := productUpdateFields updates
  let values := productUpdateValues updates
  if fields.isEmpty then (.ok (getProductById st id), st)
  else if ProductKey.updated_at ∈ fields then
    (.error "multiple assignments to same column", st)
  else
    let assigns := fields.zip values
    let upd := productRowUpdate now id assigns
    match st.products.mapM upd with
    | none => (.error "invalid input syntax for column type", st)
    | some newProducts =>
      if (newProducts.map (fun r => r.data.sku)).Nodup then
        (.ok ((getProductById st id).bind upd), { st with products := newProducts })
      else (.error "duplicate key value violates unique constraint", st)

/-- `getOrderById`. -/
def getOrderById (st : Store) (id : Nat) : Option OrderRow :=
  st.orders.find? (fun o => o.id == id)

/-- `createOrder`: first `getUserById(order.user_id)`, throwing
`User with ID <id> does not exist` when absent, then INSERT (UNIQUE
constraint on `order_number`). -/
def createOrder (now : Nat) (st : Store) (o : OrderInput) :
    Except String OrderRow × Store :=
  match getUserById st o.user_id with
  | none => (.error ("User with ID " ++ toString o.user_id ++ " does not exist"), st)
  | some _ =>
    if o.order_number ∈ orderNumbers st then
      (.error "duplicate key value violates unique constraint", st)
    else
      let row : OrderRow :=
        ⟨st.nextOrderId, o.user_id, o.order_number, o.total_amount, o.status.toStr,
         o.shipping_address, o.billing_address, o.payment_method, now, now⟩
      (.ok row,
       { st with orders := st.orders ++ [row], nextOrderId := st.nextOrderId + 1 })

/-- `updateOrderStatus`: runs the UPDATE; when `rows.length === 0` the
source throws `Order with ID <id> not found` instead of returning null. -/
def updateOrderStatus (now : Nat) (st : Store) (id : Nat) (status : OrderStatus) :
    Except String OrderRow × Store :=
  let upd : OrderRow → OrderRow := fun o =>
    if o.id == id then { o with status := status.toStr, updated_at := now } else o
  match getOrderById st id with
  | none => (.error ("Order with ID " ++ toString id ++ " not found"), st)
  | some o => (.ok (upd o), { st with orders := st.orders.map upd })

/-- `deleteOrder`; cascade removes the order's items. -/
def deleteOrder (st : Store) (id : Nat) : Bool × Store :=
  if st.orders.any (fun o => o.id == id) then
    (true,
     { st with
        orders := st.orders.filter (fun o => !(o.id == id)),
        order_items := st.order_items.filter (fun it => !(it.order_id == id)) })
  else (false, st)

/-- `addOrderItem`: INSERT; the foreign keys on `order_id` and
`product_id` reject a dangling reference. -/
def addOrderItem (st : Store) (it : OrderItemInput) :
    Except String OrderItemRow × Store :=
  if (getOrderById st it.order_id).isNone ∨ (getProductById st it.product_id).isNone then
    (.error "violates foreign key constraint", st)
  else
    let row : OrderItemRow :=
      ⟨st.nextOrderItemId, it.order_id, it.product_id, it.quantity,
       it.unit_price, it.total_price⟩
    (.ok row,
     { st with order_items := st.order_items ++ [row],
               nextOrderItemId := st.nextOrderItemId + 1 })

/-- `removeOrderItem`. -/
def removeOrderItem (st : Store) (id : Nat) : Bool × Store :=
  if st.order_items.any (fun it => it.id == id) then
    (true, { st with order_items := st.order_items.filter (fun it => !(it.id == id)) })
  else (false, st)

end DatabaseService

/-! ## DatabaseTestData (src/utils/GrpcClient.ts, second document)

`Date.now()` and `Math.random()` have no place in a pure embedding; the
generators that consult them take the timestamp, the random suffix or a
stream of random draws as explicit parameters. `generateUsers` and
`generateProducts` consult neither for their natural keys. -/

namespace DatabaseTestData

/-- `generateUsers(count)`: indices 1..count, every field a pure function
of the index. -/
def generateUsers (count : Nat) : List UserData :=
  (List.range count).map (fun i =>
    let index := i + 1
    { username := "testuser" ++ toString index,
      email := "testuser" ++ toString index ++ "@example.com",
      password := "password" ++ toString index,
      first_name := "Test" ++ toString index,
      last_name := "User" ++ toString index,
      phone := "+1-555-" ++ padStart (toString index) 3 '0' ++ "-" ++
        padStart (toString index) 4 '0',
      address := toString index ++ " Test Street",
      city := "Test City",
      state := "TS",
      zip_code := padStart (toString index) 5 '0',
      country := "Test Country" })

def productCategories : List String :=
  ["Electronics", "Clothing", "Books", "Home & Garden", "Sports"]

def productBrands : List String :=
  ["TestBrand", "SampleCorp", "DemoInc", "MockLtd", "FakeCo"]

/-- `generateProducts(count)`: `rand k` stands for the k-th `Math.random()`
draw (three per product: price, stock, is_active); `name`, `sku`,
`category`, `brand`, `description` and `image_url` are pure functions of
the index. -/
def generateProducts (rand : Nat → ℚ) (count : Nat) : List ProductData :=
  (List.range count).map (fun i =>
    let category := productCategories.getD (i % productCategories.length) ""
    let brand := productBrands.getD (i % productBrands.length) ""
    { name := "Test Product " ++ toString (i + 1),
      description := "This is a test product " ++ toString (i + 1) ++
        " for testing purposes. It belongs to the " ++ category ++ " category.",
      price := ((round ((rand (3 * i) * 1000 + 10) * 100) : ℤ) : ℚ) / 100,
      category := category,
      brand := brand,
      stock_quantity := ⌊rand (3 * i + 1) * 100⌋ + 1,
      sku := "SKU-" ++ padStart (toString (i + 1)) 6 '0',
      image_url := "https://example.com/images/product" ++ toString (i + 1) ++ ".jpg",
      is_active := decide ((1 : ℚ) / 10 < rand (3 * i + 2)) })

/-- `generateSingleUser()`: `timestamp` is `Date.now()` and `suffix` the
six-character random base-36 suffix. -/
def generateSingleUser (timestamp : Nat) (suffix : String) : UserData :=
  { username := "singletestuser_" ++ toString timestamp ++ "_" ++ suffix,
    email := "singletestuser_" ++ toString timestamp ++ "_" ++ suffix ++ "@example.com",
    password := "testpassword123",
    first_name := "Single",
    last_name := "TestUser",
    phone := "+1-555-123-4567",
    address := "123 Single Test Street",
    city := "Single Test City",
    state := "ST",
    zip_code := "12345",
    country := "Single Test Country" }

end DatabaseTestData

/-! ## JSON values, JavaScript truthiness and spread

The request/response shapes of the gRPC layer are JSON-like objects:
association lists of string keys in insertion order. -/

inductive JVal where
  | undefined
  | str (s : String)
  | num (n : Int)
  | bool (b : Bool)
  | obj (fields : List (String × JVal))
  | arr (elems : List JVal)

/-- Property lookup on an object; `none` for an absent key. -/
def jlookup (o : List (String × JVal)) (k : String) : Option JVal :=
  (o.find? (fun p => p.1 == k)).map Prod.snd

/-- JavaScript truthiness of a value (objects and arrays are truthy). -/
def jsTruthy : JVal → Bool
  | .undefined => false
  | .str s => !(s == "")
  | .num n => !(n == 0)
  | .bool b => b
  | .obj _ => true
  | .arr _ => true

/-- `a || d` for `a` a possibly-absent property. -/
def jsOr (v : Option JVal) (d : JVal) : JVal :=
  match v with
  | some x => if jsTruthy x then x else d
  | none => d

/-- `req.k`: an absent property reads as the JS undefined value. -/
def reqGet (req : List (String × JVal)) (k : String) : JVal :=
  (jlookup req k).getD .undefined

/-- `{ ...base, ...upd }` up to lookup: a key of `upd` wins over the same
key of `base`. -/
def jsSpread (base upd : List (String × JVal)) : List (String × JVal) :=
  base.filter (fun p => !(upd.any (fun q => q.1 == p.1))) ++ upd

/-- The request object `GrpcService.updateUser(id, updates)` sends
(src/unnamed/part_004, second document): every user field is present,
defaulted with `|| ''` when `updates` does not supply a truthy value. -/
def grpcUpdateUserRequest (id : Nat) (updates : List (String × JVal)) :
    List (String × JVal) :=
  [("id", .num (Int.ofNat id)),
   ("username", jsOr (jlookup updates "username") (.str "")),
   ("email", jsOr (jlookup updates "email") (.str "")),
   ("password", jsOr (jlookup updates "password") (.str "")),
   ("first_name", jsOr (jlookup updates "first_name") (.str "")),
   ("last_name", jsOr (jlookup updates "last_name") (.str "")),
   ("phone", jsOr (jlookup updates "phone") (.str "")),
   ("address", jsOr (jlookup updates "address") (.str "")),
   ("city", jsOr (jlookup updates "city") (.str "")),
   ("state", jsOr (jlookup updates "state") (.str "")),
   ("zip_code", jsOr (jlookup updates "zip_code") (.str "")),
   ("country", jsOr (jlookup updates "country") (.str ""))]

/-- The eleven user field names `GrpcService.updateUser` always sends. -/
def grpcUserFieldNames : List String :=
  ["username", "email", "password", "first_name", "last_name", "phone",
   "address", "city", "state", "zip_code", "country"]

/-! ## The mock gRPC server (src/server/simple-grpc-server.js)

Each handler is a function from the decoded request object to the pair
(error passed to the callback, response object). -/

/-- The shape of one mock-server method implementation. -/
def Handler : Type :=
  List (String × JVal) → Option String × List (String × JVal)

namespace userImpl

def GetAllUsers : Handler := fun req =>
  (none, [("users", .arr []), ("total", .num 0),
          ("page", jsOr (jlookup req "page") (.num 1)),
          ("limit", jsOr (jlookup req "limit") (.num 100)),
          ("message", .str "OK"), ("success", .bool true)])

def CreateUser : Handler := fun req =>
  (none, [("user", .obj (jsSpread [("id", .num 1)] req)),
          ("message", .str "created"), ("success", .bool true)])

def GetUserById : Handler := fun req =>
  (none, [("user", .obj [("id", jsOr (jlookup req "id") (.num 1))]),
          ("message", .str "OK"), ("success", .bool true)])

def GetUserByEmail : Handler := fun req =>
  (none, [("user", .obj [("email", jsOr (jlookup req "email") (.str ""))]),
          ("message", .str "OK"), ("success", .bool true)])

def UpdateUser : Handler := fun req =>
  (none, [("user", .obj (jsSpread [("id", jsOr (jlookup req "id") (.num 1))] req)),
          ("message", .str "updated"), ("success", .bool true)])

def DeleteUser : Handler := fun _ =>
  (none, [("success", .bool true), ("message", .str "deleted")])

end userImpl

namespace productImpl

def GetAllProducts : Handler := fun req =>
  (none, [("products", .arr []), ("total", .num 0),
          ("page", jsOr (jlookup req "page") (.num 1)),
          ("limit", jsOr (jlookup req "limit") (.num 100)),
          ("message", .str "OK"), ("success", .bool true)])

def CreateProduct : Handler := fun req =>
  (none, [("product", .obj (jsSpread [("id", .num 1)] req)),
          ("message", .str "created"), ("success", .bool true)])

def GetProductById : Handler := fun req =>
  (none, [("product", .obj [("id", jsOr (jlookup req "id") (.num 1))]),
          ("message", .str "OK"), ("success", .bool true)])

def GetProductBySku : Handler := fun req =>
  (none, [("product", .obj [("sku", jsOr (jlookup req "sku") (.str ""))]),
          ("message", .str "OK"), ("success", .bool true)])

def UpdateProduct : Handler := fun req =>
  (none, [("product", .obj (jsSpread [("id", jsOr (jlookup req "id") (.num 1))] req)),
          ("message", .str "updated"), ("success", .bool true)])

def DeleteProduct : Handler := fun _ =>
  (none, [("success", .bool true), ("message", .str "deleted")])

end productImpl

namespace orderImpl

def GetAllOrders : Handler := fun req =>
  (none, [("orders", .arr []), ("total", .num 0),
          ("page", jsOr (jlookup req "page") (.num 1)),
          ("limit", jsOr (jlookup req "limit") (.num 100)),
          ("message", .str "OK"), ("success", .bool true)])

def CreateOrder : Handler := fun req =>
  (none, [("order", .obj (jsSpread [("id", .num 1)] req)),
          ("message", .str "created"), ("success", .bool true)])

def GetOrderById : Handler := fun req =>
  (none, [("order", .obj [("id", jsOr (jlookup req "id") (.num 1))]),
          ("message", .str "OK"), ("success", .bool true)])

def GetOrderByNumber : Handler := fun req =>
  (none, [("order", .obj [("order_number", jsOr (jlookup req "order_number") (.str ""))]),
          ("message", .str "OK"), ("success", .bool true)])

def UpdateOrderStatus : Handler := fun req =>
  (none, [("order", .obj [("id", jsOr (jlookup req "id") (.num 1)),
                          ("status", reqGet req "status")]),
          ("message", .str "updated"), ("success", .bool true)])

def DeleteOrder : Handler := fun _ =>
  (none, [("success", .bool true), ("message", .str "deleted")])

def AddOrderItem : Handler := fun req =>
  (none, [("order_item", .obj (jsSpread [("id", .num 1)] req)),
          ("message", .str "added"), ("success", .bool true)])

def GetOrderItems : Handler := fun _ =>
  (none, [("order_items", .arr []), ("message", .str "OK"), ("success", .bool true)])

def RemoveOrderItem : Handler := fun _ =>
  (none, [("success", .bool true), ("message", .str "removed")])

end orderImpl

/-! ## DatabaseConnection.transaction (src/unnamed/part_004, first document)

One pg client processes its queue in order. `transaction` queues BEGIN,
then every statement at once (`Promise.all`), then COMMIT on success or
ROLLBACK in the catch branch, re-throwing the caught error (the earliest
rejection). After a failed statement PostgreSQL aborts the transaction:
later statements fail until ROLLBACK, which restores the BEGIN snapshot. -/

/-- A statement is its effect on the abstract database state: a new state
or an error. -/
def Stmt (σ : Type) : Type := σ → Except String σ

/-- What the client actually receives, in order. -/
inductive SqlCmd where
  | begin
  | stmt (i : Nat)
  | commit
  | rollback
deriving DecidableEq

/-- The pg client: current (uncommitted) state, the snapshot taken by
BEGIN, the aborted flag, and the log of commands received. -/
structure Client (σ : Type) where
  current : σ
  snapshot : Option σ
  aborted : Bool
  log : List SqlCmd

/-- What the client queue sees from `transaction`. -/
inductive TxCmd (σ : Type) where
  | begin
  | run (q : Stmt σ) (i : Nat)
  | commit
  | rollback

/-- Process one queued command; returns the error the corresponding
promise rejects with, if any. -/
def clientExec {σ : Type} (c : Client σ) : TxCmd σ → Client σ × Option String
  | .begin =>
      ({ c with snapshot := some c.current, log := c.log ++ [.begin] }, none)
  | .run q i =>
      if c.aborted then
        ({ c with log := c.log ++ [.stmt i] },
         some "current transaction is aborted")
      else
        match q c.current with
        | .ok s => ({ c with current := s, log := c.log ++ [.stmt i] }, none)
        | .error e => ({ c with aborted := true, log := c.log ++ [.stmt i] }, some e)
  | .commit => ({ c with snapshot := none, log := c.log ++ [.commit] }, none)
  | .rollback =>
      ({ c with current := c.snapshot.getD c.current, snapshot := none,
                aborted := false, log := c.log ++ [.rollback] }, none)

/-- `Promise.all(queries.map(q => client.query(q)))`: every statement is
queued; the combined promise rejects with the earliest rejection. -/
def dispatchAll {σ : Type} (c : Client σ) :
    List (Stmt σ) → Nat → Client σ × Option String
  | [], _ => (c, none)
  | q :: rest, i =>
      let step := clientExec c (.run q i)
      let next := dispatchAll step.1 rest (i + 1)
      (next.1, step.2 <|> next.2)

/-- `DatabaseConnection.transaction(queries)`. -/
def transaction {σ : Type} (c : Client σ) (qs : List (Stmt σ)) :
    Client σ × Except String Unit :=
  let c1 := (clientExec c .begin).1
  let run := dispatchAll c1 qs 0
  match run.2 with
  | none => ((clientExec run.1 .commit).1, .ok ())
  | some err => ((clientExec run.1 .rollback).1, .error err)

/-- Reference semantics: the statements in order, stopping at the first
error. -/
def seqRun {σ : Type} (s : σ) : List (Stmt σ) → Except String σ
  | [] => .ok s
  | q :: rest =>
      match q s with
      | .ok s' => seqRun s' rest
      | .error e => .error e

/-! ## Reachable stores and the uniqueness invariant -/

open DatabaseService in
/-- The store states reachable from a fresh schema through the CRUD
operations of `DatabaseService` (errors leave the store unchanged, so only
the mutating successes and the total deletes step). -/
inductive Reachable : Store → Prop where
  | empty : Reachable emptyStore
  | createUserStep {now st u r st'} : Reachable st →
      createUser now st u = (.ok r, st') → Reachable st'
  | updateUserStep {now st id updates res st'} : Reachable st →
      updateUser now st id updates = (.ok res, st') → Reachable st'
  | deleteUserStep {st id b st'} : Reachable st →
      deleteUser st id = (b, st') → Reachable st'
  | createProductStep {now st p r st'} : Reachable st →
      createProduct now st p = (.ok r, st') → Reachable st'
  | updateProductStep {now st id updates res st'} : Reachable st →
      updateProduct now st id updates = (.ok res, st') → Reachable st'
  | deleteProductStep {st id b st'} : Reachable st →
      deleteProduct st id = (b, st') → Reachable st'
  | createOrderStep {now st o r st'} : Reachable st →
      createOrder now st o = (.ok r, st') → Reachable st'
  | updateOrderStatusStep {now st id status r st'} : Reachable st →
      updateOrderStatus now st id status = (.ok r, st') → Reachable st'
  | deleteOrderStep {st id b st'} : Reachable st →
      deleteOrder st id = (b, st') → Reachable st'
  | addOrderItemStep {st it r st'} : Reachable st →
      addOrderItem st it = (.ok r, st') → Reachable st'
  | removeOrderItemStep {st id b st'} : Reachable st →
      removeOrderItem st id = (b, st') → Reachable st'

open DatabaseService in
/-- The natural-key uniqueness invariant of the schema: usernames, emails
and skus are pairwise distinct. -/
def Uniq (st : Store) : Prop :=
  (usernames st).Nodup ∧ (emails st).Nodup ∧ (skus st).Nodup

/-! ## Auxiliary definitions for concrete runs -/

/-- The five status strings of the RPC layer, in declaration order. -/
def rpcStatusValues : List String := STATUS.map Prod.snd

/-- Success of one mock handler: nil error and a `success: true` response,
whatever the request. -/
def RespOk (h : Handler) : Prop :=
  ∀ req, (h req).1 = none ∧ jlookup (h req).2 "success" = some (.bool true)

/-- A create/update mock handler echoing the request into the returned
entity and defaulting the entity id to 1 when the request carries none. -/
def EchoesWithDefaultId (h : Handler) (entity : String) : Prop :=
  ∀ req, ∃ fields, jlookup (h req).2 entity = some (.obj fields) ∧
    (∀ k, (jlookup req k).isSome → jlookup fields k = jlookup req k) ∧
    (jlookup req "id" = none → jlookup fields "id" = some (.num 1))

/-- Sample rows and stores used to instantiate the theorems below. -/
def bobData : UserData :=
  ⟨"bob", "bob@example.com", "pw", "Bob", "Builder", "", "", "", "", "", ""⟩

def bobRow : UserRow := ⟨1, bobData, 0, 0⟩

def st1 : Store := { emptyStore with users := [bobRow], nextUserId := 2 }

def bobRowPatched : UserRow :=
  ⟨1, ⟨"bob", "bob@example.com", "pw", "X", "Builder", "", "", "", "", "", ""⟩, 0, 5⟩

def st1Patched : Store := { st1 with users := [bobRowPatched] }

def sampleUser : UserData :=
  ⟨"testuser1", "testuser1@example.com", "password123", "Test", "User",
   "", "", "", "", "", ""⟩

def dupBob : UserData :=
  ⟨"bob", "other@example.com", "pw2", "Bo", "Bu", "", "", "", "", "", ""⟩

def sampleOrder : OrderInput :=
  ⟨99999, "ORD-1", 100, .PENDING, "1 Shipping St", "1 Billing St", "Credit Card"⟩

def widgetData : ProductData :=
  ⟨"Widget", "a widget", 10, "Electronics", "TestBrand", 5, "SKU-W1", "", true⟩

def widgetRow : ProductRow := ⟨1, widgetData, 0, 0⟩

def stP : Store := { emptyStore with products := [widgetRow], nextProductId := 2 }

def widgetRowPatched : ProductRow :=
  ⟨1, ⟨"Widget", "a widget", 42, "Electronics", "TestBrand", 5, "SKU-W1", "", true⟩, 0, 7⟩

def stPPatched : Store := { stP with products := [widgetRowPatched] }

/-- A fresh client over a toy numeric database state. -/
def c0 : Client Nat := ⟨0, none, false, []⟩

/-- Two concrete statements for a concrete transaction run. -/
def demoStmts : List (Stmt Nat) :=
  [fun s => .ok (s + 1), fun s => .ok (s * 2)]

end ShipIn

deriving instance DecidableEq for Except

namespace ShipIn

open DatabaseService DatabaseTestData

/-! ## Helper lemmas -/

theorem string_append_cancel_left {A s1 s2 : String} (h : A ++ s1 = A ++ s2) :
    s1 = s2 := by
  have hd := congrArg String.data h
  rw [String.data_append, String.data_append] at hd
  exact String.ext (List.append_cancel_left hd)

theorem string_append_cancel_right {B1 B2 s : String} (h : B1 ++ s = B2 ++ s) :
    B1 = B2 := by
  have hd := congrArg String.data h
  rw [String.data_append, String.data_append] at hd
  exact String.ext (List.append_cancel_right hd)

/-! ## C2 -/

/-- C2 (amended): for every id matching no existing Order,
`DatabaseService.updateOrderStatus` signals the not-found condition by
throwing the error `Order with ID <id> not found` (never by returning
null), leaving the store unchanged. -/
theorem C2_updateOrderStatus_missing_id_throws :
    ∀ (now : Nat) (st : Store) (id : Nat) (status : OrderStatus),
      getOrderById st id = none →
      updateOrderStatus now st id status =
        (.error ("Order with ID " ++ toString id ++ " not found"), st) := by
  intro now st id status h
  simp [updateOrderStatus, h]

/-- C2 witness: at a concrete missing id the thrown message and the
unchanged store are exactly as stated. -/
theorem C2_witness :
    updateOrderStatus 0 emptyStore 99999 OrderStatus.CONFIRMED =
      (.error ("Order with ID " ++ toString (99999 : Nat) ++ " not found"),
       emptyStore) :=
  C2_updateOrderStatus_missing_id_throws 0 emptyStore 99999 OrderStatus.CONFIRMED rfl

/-- C2 counterexample to the claim as stated: on an id matching no order
the operation produces a thrown error, not a null/false return. -/
theorem C2_counterexample :
    (updateOrderStatus 0 emptyStore 99999 OrderStatus.CONFIRMED).1 =
      .error "Order with ID 99999 not found" := rfl

/-! ## C4 -/

/-- C4: for every Order input whose user_id matches no existing User,
`DatabaseService.createOrder` throws `User with ID <id> does not exist`
and leaves the store unchanged (no order row inserted). -/
theorem C4_createOrder_missing_user_throws :
    ∀ (now : Nat) (st : Store) (o : OrderInput),
      getUserById st o.user_id = none →
      createOrder now st o =
        (.error ("User with ID " ++ toString o.user_id ++ " does not exist"), st) := by
  intro now st o h
  simp [createOrder, h]

/-- C4 witness: the concrete scenario of the spec, `user_id = 99999`
against an empty store. -/
theorem C4_witness :
    createOrder 0 emptyStore sampleOrder =
      (.error ("User with ID " ++ toString sampleOrder.user_id ++ " does not exist"),
       emptyStore) :=
  C4_createOrder_missing_user_throws 0 emptyStore sampleOrder rfl

/-! ## C8 -/

/-- C8: the RPC-layer STATUS vocabulary and the DB-layer OrderStatus enum
agree on pending/shipped/delivered/cancelled and differ in exactly one
element: the DB layer has confirmed where the RPC layer has processing. -/
theorem C8_status_vocabularies :
    OrderStatus.values.filter (fun s => s ∈ rpcStatusValues) =
      ["pending", "shipped", "delivered", "cancelled"] ∧
    rpcStatusValues.filter (fun s => s ∈ OrderStatus.values) =
      ["pending", "shipped", "delivered", "cancelled"] ∧
    OrderStatus.values.filter (fun s => s ∉ rpcStatusValues) = ["confirmed"] ∧
    rpcStatusValues.filter (fun s => s ∉ OrderStatus.values) = ["processing"] := by
  decide

/-! ## C10 -/

/-- C10: an updates object with no updatable key (empty, or carrying only
id and created_at) makes `updateUser`/`updateProduct` return the plain
get-by-id result and leave the store, including every `updated_at`,
completely unchanged. -/
theorem C10_empty_update_is_pure_get :
    ∀ (now : Nat) (st : Store) (id : Nat)
      (uu : List (UserKey × String)) (pu : List (ProductKey × Val)),
      (∀ k ∈ uu.map Prod.fst, k = UserKey.id ∨ k = UserKey.created_at) →
      (∀ k ∈ pu.map Prod.fst, k = ProductKey.id ∨ k = ProductKey.created_at) →
      updateUser now st id uu = (.ok (getUserById st id), st) ∧
      updateProduct now st id pu = (.ok (getProductById st id), st) := by
  intro now st id uu pu hu hp
  have hu' : userUpdateFields uu = [] := by
    apply List.filter_eq_nil_iff.mpr
    intro k hk
    rcases hu k hk with rfl | rfl <;> simp
  have hp' : productUpdateFields pu = [] := by
    apply List.filter_eq_nil_iff.mpr
    intro k hk
    rcases hp k hk with rfl | rfl <;> simp
  constructor
  · simp [updateUser, hu']
  · simp [updateProduct, hp']

/-- C10 witness: an update carrying only the key id (user) and only the
key created_at (product) at a concrete store. -/
theorem C10_witness :
    updateUser 3 st1 1 [(UserKey.id, "9")] = (.ok (getUserById st1 1), st1) ∧
    updateProduct 3 stP 1 [(ProductKey.created_at, Val.str "x")] =
      (.ok (getProductById stP 1), stP) :=
  ⟨(C10_empty_update_is_pure_get 3 st1 1 [(UserKey.id, "9")] []
      (by decide) (by decide)).1,
   (C10_empty_update_is_pure_get 3 stP 1 [] [(ProductKey.created_at, Val.str "x")]
      (by decide) (by decide)).2⟩

/-! ## C3 -/

/-- C3 counterexample to the claim as stated: the batch generators are
deterministic, so the natural keys of two invocations of
`generateUsers(5)` (and of `generateProducts(10)`) are not pairwise
distinct across the invocations. -/
theorem C3_counterexample :
    ¬ List.Pairwise (fun a b => a ≠ b)
        ((generateUsers 5 ++ generateUsers 5).map (fun u => u.username)) ∧
    ¬ List.Pairwise (fun a b => a ≠ b)
        ((generateProducts (fun _ => 0) 10 ++ generateProducts (fun _ => 0) 10).map
          (fun p => p.sku)) := by
  constructor <;> decide

theorem not_pairwise_ne_of_mem_both {α : Type} {l1 l2 : List α} {a : α}
    (h1 : a ∈ l1) (h2 : a ∈ l2) :
    ¬ List.Pairwise (fun x y => x ≠ y) (l1 ++ l2) := by
  intro hp
  exact absurd rfl ((List.pairwise_append.mp hp).2.2 a h1 a h2)

theorem generateProducts_map_sku (rand : Nat → ℚ) (count : Nat) :
    (generateProducts rand count).map (fun p => p.sku) =
      (List.range count).map (fun i => "SKU-" ++ padStart (toString (i + 1)) 6 '0') := by
  unfold generateProducts
  rw [List.map_map]
  rfl

theorem generateUsers_username_mem (count : Nat) (hc : 0 < count) :
    "testuser1" ∈ (generateUsers count).map (fun u => u.username) := by
  unfold generateUsers
  rw [List.map_map]
  exact List.mem_map.mpr ⟨0, List.mem_range.mpr hc, rfl⟩

theorem generateUsers_email_mem (count : Nat) (hc : 0 < count) :
    "testuser1@example.com" ∈ (generateUsers count).map (fun u => u.email) := by
  unfold generateUsers
  rw [List.map_map]
  exact List.mem_map.mpr ⟨0, List.mem_range.mpr hc, rfl⟩

theorem generateProducts_sku_mem (rand : Nat → ℚ) (count : Nat) (hc : 0 < count) :
    "SKU-000001" ∈ (generateProducts rand count).map (fun p => p.sku) := by
  rw [generateProducts_map_sku]
  exact List.mem_map.mpr ⟨0, List.mem_range.mpr hc, rfl⟩

/-- C3 (amended): cross-invocation distinctness fails for the batch
generators: `generateUsers` consults nothing but the count and the sku
list of `generateProducts` does not depend on the `Math.random` draws, so
for every nonzero count the username/email lists (users) and the sku
lists (products) of two invocations are never pairwise distinct across
the invocations. It holds only for the timestamp plus random-suffix keys
of `generateSingleUser`: at any one timestamp, two results have distinct
username (and distinct email) exactly when their random suffixes
differ. -/
theorem C3_generator_cross_invocation_keys :
    (∀ (count : Nat) (rand1 rand2 : Nat → ℚ),
      (generateProducts rand1 count).map (fun p => p.sku) =
        (generateProducts rand2 count).map (fun p => p.sku)) ∧
    (∀ count : Nat, 0 < count →
      ¬ List.Pairwise (fun a b => a ≠ b)
        ((generateUsers count ++ generateUsers count).map (fun u => u.username)) ∧
      ¬ List.Pairwise (fun a b => a ≠ b)
        ((generateUsers count ++ generateUsers count).map (fun u => u.email))) ∧
    (∀ (count : Nat) (rand1 rand2 : Nat → ℚ), 0 < count →
      ¬ List.Pairwise (fun a b => a ≠ b)
        ((generateProducts rand1 count ++ generateProducts rand2 count).map
          (fun p => p.sku))) ∧
    (∀ (t : Nat) (s1 s2 : String),
      ((generateSingleUser t s1).username ≠ (generateSingleUser t s2).username ↔
        s1 ≠ s2) ∧
      ((generateSingleUser t s1).email ≠ (generateSingleUser t s2).email ↔
        s1 ≠ s2)) := by
  refine ⟨?_, ?_, ?_, ?_⟩
  · intro count rand1 rand2
    rw [generateProducts_map_sku, generateProducts_map_sku]
  · intro count hc
    constructor
    · rw [List.map_append]
      exact not_pairwise_ne_of_mem_both (generateUsers_username_mem count hc)
        (generateUsers_username_mem count hc)
    · rw [List.map_append]
      exact not_pairwise_ne_of_mem_both (generateUsers_email_mem count hc)
        (generateUsers_email_mem count hc)
  · intro count rand1 rand2 hc
    rw [List.map_append]
    exact not_pairwise_ne_of_mem_both (generateProducts_sku_mem rand1 count hc)
      (generateProducts_sku_mem rand2 count hc)
  · intro t s1 s2
    constructor
    · constructor
      · intro hu hs
        subst hs
        exact hu rfl
      · intro hne h
        simp only [generateSingleUser] at h
        exact hne (string_append_cancel_left h)
    · constructor
      · intro hu hs
        subst hs
        exact hu rfl
      · intro hne h
        simp only [generateSingleUser] at h
        exact hne (string_append_cancel_left (string_append_cancel_right h))

/-! ## C7 -/

/-- C7: for a fresh User input (natural keys unused, next SERIAL id
unused), createUser returns a row carrying the next numeric id and the
input's username/email, getUserById returns that same row, deleteUser
returns true, a second getUserById returns null, and deleteUser on the
now-missing id returns false without throwing (it is total). -/
theorem C7_user_crud_roundtrip :
    ∀ (now : Nat) (st : Store) (u : UserData),
      (∀ r ∈ st.users, r.data.username ≠ u.username) →
      (∀ r ∈ st.users, r.data.email ≠ u.email) →
      (∀ r ∈ st.users, r.id ≠ st.nextUserId) →
      ∃ row stA stB,
        createUser now st u = (.ok row, stA) ∧
        row.id = st.nextUserId ∧
        row.data.username = u.username ∧
        row.data.email = u.email ∧
        getUserById stA row.id = some row ∧
        deleteUser stA row.id = (true, stB) ∧
        getUserById stB row.id = none ∧
        deleteUser stB row.id = (false, stB) := by
  intro now st u h1 h2 h3
  have hdup : ¬(u.username ∈ usernames st ∨ u.email ∈ emails st) := by
    rintro (h | h)
    · obtain ⟨r, hr, he⟩ := List.mem_map.mp h
      exact h1 r hr he
    · obtain ⟨r, hr, he⟩ := List.mem_map.mp h
      exact h2 r hr he
  set row : UserRow := ⟨st.nextUserId, u, now, now⟩ with hrow
  set stA : Store :=
    { st with users := st.users ++ [row], nextUserId := st.nextUserId + 1 } with hstA
  have husersA : stA.users = st.users ++ [row] := rfl
  have hany : stA.users.any (fun r => r.id == row.id) = true := by
    apply List.any_eq_true.mpr
    exact ⟨row, by rw [husersA]; exact List.mem_append_right _ (List.mem_singleton.mpr rfl),
      by simp⟩
  have hdel1 : (deleteUser stA row.id).1 = true := by
    simp only [deleteUser]
    rw [if_pos hany]
  have hdel2 : (deleteUser stA row.id).2.users =
      stA.users.filter (fun r => !(r.id == row.id)) := by
    simp only [deleteUser]
    rw [if_pos hany]
  have hfilter_none : ∀ x ∈ stA.users.filter (fun r => !(r.id == row.id)),
      ¬(x.id == row.id) = true := by
    intro x hx
    rw [List.mem_filter] at hx
    simpa using hx.2
  set stB : Store := (deleteUser stA row.id).2 with hstB
  refine ⟨row, stA, stB, ?_, rfl, rfl, rfl, ?_, Prod.ext hdel1 rfl, ?_, ?_⟩
  · simp only [createUser]
    rw [if_neg hdup]
  · unfold getUserById
    rw [husersA, List.find?_append]
    have hnone : st.users.find? (fun r => r.id == row.id) = none := by
      apply List.find?_eq_none.mpr
      intro x hx
      simp only [beq_iff_eq]
      exact h3 x hx
    simp [hnone]
  · unfold getUserById
    rw [hdel2]
    exact List.find?_eq_none.mpr hfilter_none
  · have hcond : (stB.users.any (fun r => r.id == row.id)) ≠ true := by
      rw [hdel2]
      intro hcontra
      obtain ⟨x, hx, hxid⟩ := List.any_eq_true.mp hcontra
      exact hfilter_none x hx hxid
    simp only [deleteUser]
    rw [if_neg hcond]

/-- C7 witness: the concrete scenario of the spec, at an empty store with
`{username: "testuser1", email: "testuser1@example.com", ...}`. -/
theorem C7_witness :
    ∃ row stA stB,
      createUser 0 emptyStore sampleUser = (.ok row, stA) ∧
      row.id = emptyStore.nextUserId ∧
      row.data.username = sampleUser.username ∧
      row.data.email = sampleUser.email ∧
      getUserById stA row.id = some row ∧
      deleteUser stA row.id = (true, stB) ∧
      getUserById stB row.id = none ∧
      deleteUser stB row.id = (false, stB) :=
  C7_user_crud_roundtrip 0 emptyStore sampleUser
    (fun r hr => absurd hr (List.not_mem_nil r))
    (fun r hr => absurd hr (List.not_mem_nil r))
    (fun r hr => absurd hr (List.not_mem_nil r))

/-! ## C9 -/

theorem jlookup_jsSpread (a b : List (String × JVal)) (k : String) :
    jlookup (jsSpread a b) k = (jlookup b k).or (jlookup a k) := by
  induction a with
  | nil =>
      simp [jsSpread, jlookup]
  | cons p a ih =>
      by_cases hp : b.any (fun q => q.1 == p.1) = true
      · have hdrop : jsSpread (p :: a) b = jsSpread a b := by
          simp [jsSpread, List.filter_cons, hp]
        rw [hdrop, ih]
        by_cases hk : (p.1 == k) = true
        · have hsome : (b.find? (fun pr => pr.1 == k)).isSome := by
            obtain ⟨q, hq, hq1⟩ := List.any_eq_true.mp hp
            apply List.find?_isSome.mpr
            refine ⟨q, hq, ?_⟩
            rw [beq_iff_eq] at hq1 hk ⊢
            rw [hq1, hk]
          obtain ⟨r, hr⟩ := Option.isSome_iff_exists.mp hsome
          have hv : jlookup b k = some r.2 := by
            unfold jlookup
            rw [hr]
            rfl
          rw [hv]
          rfl
        · have h2 : jlookup (p :: a) k = jlookup a k := by
            simp [jlookup, List.find?_cons, hk]
          rw [h2]
      · have hkeep : jsSpread (p :: a) b = p :: jsSpread a b := by
          simp [jsSpread, List.filter_cons, hp]
        rw [hkeep]
        by_cases hk : (p.1 == k) = true
        · have hbnone : jlookup b k = none := by
            unfold jlookup
            rw [List.find?_eq_none.mpr]
            · rfl
            · intro q hq hq1
              apply hp
              apply List.any_eq_true.mpr
              refine ⟨q, hq, ?_⟩
              rw [beq_iff_eq] at hq1 hk ⊢
              rw [hq1, hk]
          have hhead : ∀ (l : List (String × JVal)),
              jlookup (p :: l) k = some p.2 := by
            intro l
            simp [jlookup, List.find?_cons, hk]
          rw [hhead, hbnone, hhead]
          rfl
        · have h1 : jlookup (p :: jsSpread a b) k = jlookup (jsSpread a b) k := by
            simp [jlookup, List.find?_cons, hk]
          have h2 : jlookup (p :: a) k = jlookup a k := by
            simp [jlookup, List.find?_cons, hk]
          rw [h1, ih, h2]

theorem spread_echo (base req : List (String × JVal))
    (hid : jlookup req "id" = none → jlookup base "id" = some (.num 1)) :
    (∀ k, (jlookup req k).isSome →
      jlookup (jsSpread base req) k = jlookup req k) ∧
    (jlookup req "id" = none →
      jlookup (jsSpread base req) "id" = some (.num 1)) := by
  constructor
  · intro k hk
    rw [jlookup_jsSpread]
    obtain ⟨v, hv⟩ := Option.isSome_iff_exists.mp hk
    rw [hv]
    rfl
  · intro h
    rw [jlookup_jsSpread, h, hid h]
    rfl

/-- C9: every method of the mock gRPC server calls back with a nil error
and a `success: true` response, whatever the request; the Create/Update
(and AddOrderItem) handlers echo the request's fields into the returned
entity and default the entity id to 1 when the request supplies none;
UpdateOrderStatus echoes id and status, the only fields of its request. -/
theorem C9_mock_server_canned_success :
    RespOk userImpl.GetAllUsers ∧ RespOk userImpl.CreateUser ∧
    RespOk userImpl.GetUserById ∧ RespOk userImpl.GetUserByEmail ∧
    RespOk userImpl.UpdateUser ∧ RespOk userImpl.DeleteUser ∧
    RespOk productImpl.GetAllProducts ∧ RespOk productImpl.CreateProduct ∧
    RespOk productImpl.GetProductById ∧ RespOk productImpl.GetProductBySku ∧
    RespOk productImpl.UpdateProduct ∧ RespOk productImpl.DeleteProduct ∧
    RespOk orderImpl.GetAllOrders ∧ RespOk orderImpl.CreateOrder ∧
    RespOk orderImpl.GetOrderById ∧ RespOk orderImpl.GetOrderByNumber ∧
    RespOk orderImpl.UpdateOrderStatus ∧ RespOk orderImpl.DeleteOrder ∧
    RespOk orderImpl.AddOrderItem ∧ RespOk orderImpl.GetOrderItems ∧
    RespOk orderImpl.RemoveOrderItem ∧
    EchoesWithDefaultId userImpl.CreateUser "user" ∧
    EchoesWithDefaultId userImpl.UpdateUser "user" ∧
    EchoesWithDefaultId productImpl.CreateProduct "product" ∧
    EchoesWithDefaultId productImpl.UpdateProduct "product" ∧
    EchoesWithDefaultId orderImpl.CreateOrder "order" ∧
    EchoesWithDefaultId orderImpl.AddOrderItem "order_item" ∧
    (∀ req, ∃ fields,
      jlookup (orderImpl.UpdateOrderStatus req).2 "order" = some (.obj fields) ∧
      jlookup fields "status" = some (reqGet req "status") ∧
      (jlookup req "id" = none → jlookup fields "id" = some (.num 1))) := by
  refine ⟨fun req => ⟨rfl, rfl⟩, fun req => ⟨rfl, rfl⟩, fun req => ⟨rfl, rfl⟩,
    fun req => ⟨rfl, rfl⟩, fun req => ⟨rfl, rfl⟩, fun req => ⟨rfl, rfl⟩,
    fun req => ⟨rfl, rfl⟩, fun req => ⟨rfl, rfl⟩, fun req => ⟨rfl, rfl⟩,
    fun req => ⟨rfl, rfl⟩, fun req => ⟨rfl, rfl⟩, fun req => ⟨rfl, rfl⟩,
    fun req => ⟨rfl, rfl⟩, fun req => ⟨rfl, rfl⟩, fun req => ⟨rfl, rfl⟩,
    fun req => ⟨rfl, rfl⟩, fun req => ⟨rfl, rfl⟩, fun req => ⟨rfl, rfl⟩,
    fun req => ⟨rfl, rfl⟩, fun req => ⟨rfl, rfl⟩, fun req => ⟨rfl, rfl⟩,
    ?_, ?_, ?_, ?_, ?_, ?_, ?_⟩
  · intro req
    exact ⟨jsSpread [("id", .num 1)] req, rfl,
      (spread_echo [("id", JVal.num 1)] req (fun _ => rfl)).1, (spread_echo [("id", JVal.num 1)] req (fun _ => rfl)).2⟩
  · intro req
    exact ⟨jsSpread [("id", jsOr (jlookup req "id") (.num 1))] req, rfl,
      (spread_echo [("id", jsOr (jlookup req "id") (.num 1))] req (fun h => by rw [h]; rfl)).1,
      (spread_echo [("id", jsOr (jlookup req "id") (.num 1))] req (fun h => by rw [h]; rfl)).2⟩
  · intro req
    exact ⟨jsSpread [("id", .num 1)] req, rfl,
      (spread_echo [("id", JVal.num 1)] req (fun _ => rfl)).1, (spread_echo [("id", JVal.num 1)] req (fun _ => rfl)).2⟩
  · intro req
    exact ⟨jsSpread [("id", jsOr (jlookup req "id") (.num 1))] req, rfl,
      (spread_echo [("id", jsOr (jlookup req "id") (.num 1))] req (fun h => by rw [h]; rfl)).1,
      (spread_echo [("id", jsOr (jlookup req "id") (.num 1))] req (fun h => by rw [h]; rfl)).2⟩
  · intro req
    exact ⟨jsSpread [("id", .num 1)] req, rfl,
      (spread_echo [("id", JVal.num 1)] req (fun _ => rfl)).1, (spread_echo [("id", JVal.num 1)] req (fun _ => rfl)).2⟩
  · intro req
    exact ⟨jsSpread [("id", .num 1)] req, rfl,
      (spread_echo [("id", JVal.num 1)] req (fun _ => rfl)).1, (spread_echo [("id", JVal.num 1)] req (fun _ => rfl)).2⟩
  · intro req
    exact ⟨[("id", jsOr (jlookup req "id") (.num 1)), ("status", reqGet req "status")],
      rfl, rfl, fun h => by rw [h]; rfl⟩

/-- C9 witness: one concrete request through a concrete handler. -/
theorem C9_witness :
    (userImpl.GetAllUsers [("page", JVal.num 2)]).1 = none ∧
    jlookup (userImpl.GetAllUsers [("page", JVal.num 2)]).2 "success" =
      some (JVal.bool true) :=
  C9_mock_server_canned_success.1 [("page", JVal.num 2)]

/-! ## C5 -/

theorem dispatchAll_log {σ : Type} :
    ∀ (qs : List (Stmt σ)) (c : Client σ) (i : Nat),
      (dispatchAll c qs i).1.log =
        c.log ++ (List.range' i qs.length).map SqlCmd.stmt := by
  intro qs
  induction qs with
  | nil =>
      intro c i
      simp [dispatchAll]
  | cons q rest ih =>
      intro c i
      have hstep : (clientExec c (.run q i)).1.log = c.log ++ [SqlCmd.stmt i] := by
        simp only [clientExec]
        by_cases h : c.aborted = true
        · rw [if_pos h]
        · rw [if_neg h]
          cases hq : q c.current <;> simp
      simp only [dispatchAll]
      rw [ih, hstep, List.length_cons, List.range'_succ]
      simp

theorem dispatchAll_snapshot {σ : Type} :
    ∀ (qs : List (Stmt σ)) (c : Client σ) (i : Nat),
      (dispatchAll c qs i).1.snapshot = c.snapshot := by
  intro qs
  induction qs with
  | nil =>
      intro c i
      simp [dispatchAll]
  | cons q rest ih =>
      intro c i
      have hstep : (clientExec c (.run q i)).1.snapshot = c.snapshot := by
        simp only [clientExec]
        by_cases h : c.aborted = true
        · rw [if_pos h]
        · rw [if_neg h]
          cases hq : q c.current <;> simp
      simp only [dispatchAll]
      rw [ih, hstep]

theorem dispatchAll_ok {σ : Type} :
    ∀ (qs : List (Stmt σ)) (c : Client σ) (i : Nat) (s' : σ),
      c.aborted = false →
      seqRun c.current qs = .ok s' →
      (dispatchAll c qs i).2 = none ∧ (dispatchAll c qs i).1.current = s' := by
  intro qs
  induction qs with
  | nil =>
      intro c i s' _ hseq
      simp only [seqRun] at hseq
      cases hseq
      simp [dispatchAll]
  | cons q rest ih =>
      intro c i s' hab hseq
      cases hq : q c.current with
      | error e =>
          rw [seqRun, hq] at hseq
          cases hseq
      | ok s1 =>
          rw [seqRun, hq] at hseq
          have hstep : clientExec c (.run q i) =
              ({ c with current := s1, log := c.log ++ [SqlCmd.stmt i] }, none) := by
            simp only [clientExec]
            rw [if_neg (by rw [hab]; exact Bool.false_ne_true), hq]
          have := ih { c with current := s1, log := c.log ++ [SqlCmd.stmt i] }
            (i + 1) s' (by exact hab) hseq
          simp only [dispatchAll, hstep]
          exact ⟨this.1, this.2⟩

theorem dispatchAll_err {σ : Type} :
    ∀ (qs : List (Stmt σ)) (c : Client σ) (i : Nat) (e : String),
      c.aborted = false →
      seqRun c.current qs = .error e →
      (dispatchAll c qs i).2 = some e := by
  intro qs
  induction qs with
  | nil =>
      intro c i e _ hseq
      simp only [seqRun] at hseq
      cases hseq
  | cons q rest ih =>
      intro c i e hab hseq
      cases hq : q c.current with
      | ok s1 =>
          rw [seqRun, hq] at hseq
          have hstep : clientExec c (.run q i) =
              ({ c with current := s1, log := c.log ++ [SqlCmd.stmt i] }, none) := by
            simp only [clientExec]
            rw [if_neg (by rw [hab]; exact Bool.false_ne_true), hq]
          have := ih { c with current := s1, log := c.log ++ [SqlCmd.stmt i] }
            (i + 1) e (by exact hab) hseq
          simp only [dispatchAll, hstep]
          simpa using this
      | error e0 =>
          rw [seqRun, hq] at hseq
          injection hseq with he
          subst he
          have hstep : clientExec c (.run q i) =
              ({ c with aborted := true, log := c.log ++ [SqlCmd.stmt i] }, some e0) := by
            simp only [clientExec]
            rw [if_neg (by rw [hab]; exact Bool.false_ne_true), hq]
          simp only [dispatchAll, hstep]
          rfl

/-- C5: `DatabaseConnection.transaction` issues BEGIN, dispatches every
statement (even past a failure, as `Promise.all` queues them all), then
COMMIT on success and ROLLBACK on failure; it re-throws the earliest
statement error, commits the sequential result on success, and restores
the pre-transaction state on failure. -/
theorem C5_transaction_dispatch_commit_rollback :
    ∀ (σ : Type) (c : Client σ) (qs : List (Stmt σ)),
      c.aborted = false →
      ((transaction c qs).1.log =
        c.log ++ [SqlCmd.begin] ++ (List.range qs.length).map SqlCmd.stmt ++
          [match (transaction c qs).2 with
           | .ok _ => SqlCmd.commit
           | .error _ => SqlCmd.rollback]) ∧
      (∀ s', seqRun c.current qs = .ok s' →
        (transaction c qs).2 = .ok () ∧ (transaction c qs).1.current = s') ∧
      (∀ e, seqRun c.current qs = .error e →
        (transaction c qs).2 = .error e ∧ (transaction c qs).1.current = c.current) := by
  intro σ c qs hab
  have hc1log : (clientExec c (TxCmd.begin (σ := σ))).1.log = c.log ++ [SqlCmd.begin] := rfl
  have hc1cur : (clientExec c (TxCmd.begin (σ := σ))).1.current = c.current := rfl
  have hc1snap : (clientExec c (TxCmd.begin (σ := σ))).1.snapshot = some c.current := rfl
  have hc1ab : (clientExec c (TxCmd.begin (σ := σ))).1.aborted = false := hab
  set c1 : Client σ := (clientExec c (TxCmd.begin (σ := σ))).1 with hc1
  have htx : transaction c qs =
      (match (dispatchAll c1 qs 0).2 with
       | none => ((clientExec (dispatchAll c1 qs 0).1 .commit).1, .ok ())
       | some err => ((clientExec (dispatchAll c1 qs 0).1 .rollback).1, .error err)) := rfl
  have hlog := dispatchAll_log (σ := σ) qs c1 0
  have hsnap := dispatchAll_snapshot (σ := σ) qs c1 0
  cases hrun : seqRun c.current qs with
  | ok s' =>
      have hd := dispatchAll_ok qs c1 0 s' hc1ab (by rw [hc1cur]; exact hrun)
      have htx2 : transaction c qs =
          ((clientExec (dispatchAll c1 qs 0).1 .commit).1, .ok ()) := by
        rw [htx, hd.1]
      refine ⟨?_, ?_, ?_⟩
      · rw [htx2]
        have : (clientExec (dispatchAll c1 qs 0).1 .commit).1.log =
            (dispatchAll c1 qs 0).1.log ++ [SqlCmd.commit] := rfl
        rw [this, hlog, hc1log, ← List.range_eq_range']
      · intro s'' hseq
        injection hseq with hss
        subst hss
        exact ⟨by rw [htx2], by rw [htx2]; exact hd.2⟩
      · intro e hseq
        exact absurd hseq (by simp)
  | error e =>
      have hd := dispatchAll_err qs c1 0 e hc1ab (by rw [hc1cur]; exact hrun)
      have htx2 : transaction c qs =
          ((clientExec (dispatchAll c1 qs 0).1 .rollback).1, .error e) := by
        rw [htx, hd]
      refine ⟨?_, ?_, ?_⟩
      · rw [htx2]
        have : (clientExec (dispatchAll c1 qs 0).1 .rollback).1.log =
            (dispatchAll c1 qs 0).1.log ++ [SqlCmd.rollback] := rfl
        rw [this, hlog, hc1log, ← List.range_eq_range']
      · intro s'' hseq
        exact absurd hseq (by simp)
      · intro e' hseq
        injection hseq with hee
        subst hee
        refine ⟨by rw [htx2], ?_⟩
        rw [htx2]
        have : (clientExec (dispatchAll c1 qs 0).1 .rollback).1.current =
            ((dispatchAll c1 qs 0).1.snapshot.getD (dispatchAll c1 qs 0).1.current) := rfl
        rw [this, hsnap, hc1snap]
        rfl

/-- C5 witness: a concrete two-statement transaction on a fresh client. -/
theorem C5_witness :
    ((transaction c0 demoStmts).1.log =
      c0.log ++ [SqlCmd.begin] ++ (List.range demoStmts.length).map SqlCmd.stmt ++
        [match (transaction c0 demoStmts).2 with
         | .ok _ => SqlCmd.commit
         | .error _ => SqlCmd.rollback]) ∧
    (∀ s', seqRun c0.current demoStmts = .ok s' →
      (transaction c0 demoStmts).2 = .ok () ∧ (transaction c0 demoStmts).1.current = s') ∧
    (∀ e, seqRun c0.current demoStmts = .error e →
      (transaction c0 demoStmts).2 = .error e ∧
        (transaction c0 demoStmts).1.current = c0.current) :=
  C5_transaction_dispatch_commit_rollback Nat c0 demoStmts rfl

/-! ## C6 -/

theorem uniq_emptyStore : Uniq emptyStore := by
  refine ⟨?_, ?_, ?_⟩ <;> simp [usernames, emails, skus, emptyStore]

theorem uniq_createUser {now : Nat} {st : Store} {u : UserData} {r : UserRow}
    {st' : Store} (h : Uniq st) (hc : createUser now st u = (.ok r, st')) :
    Uniq st' := by
  simp only [createUser] at hc
  split at hc
  · exact absurd (congrArg Prod.fst hc) (by simp)
  · rename_i hd
    push_neg at hd
    injection hc with h1 h2
    subst h2
    refine ⟨?_, ?_, h.2.2⟩
    · show ((st.users ++ [(⟨st.nextUserId, u, now, now⟩ : UserRow)]).map
        (fun r => r.data.username)).Nodup
      rw [List.map_append, List.nodup_append]
      exact ⟨h.1, List.nodup_singleton _, List.disjoint_singleton.mpr hd.1⟩
    · show ((st.users ++ [(⟨st.nextUserId, u, now, now⟩ : UserRow)]).map
        (fun r => r.data.email)).Nodup
      rw [List.map_append, List.nodup_append]
      exact ⟨h.2.1, List.nodup_singleton _, List.disjoint_singleton.mpr hd.2⟩

theorem uniq_updateUser {now : Nat} {st : Store} {id : Nat}
    {updates : List (UserKey × String)} {res : Option UserRow} {st' : Store}
    (h : Uniq st) (hc : updateUser now st id updates = (.ok res, st')) :
    Uniq st' := by
  simp only [updateUser] at hc
  split at hc
  · injection hc with h1 h2
    subst h2
    exact h
  · split at hc
    · exact absurd (congrArg Prod.fst hc) (by simp)
    · split at hc
      · rename_i hcond
        injection hc with h1 h2
        subst h2
        exact ⟨hcond.1, hcond.2, h.2.2⟩
      · exact absurd (congrArg Prod.fst hc) (by simp)

theorem uniq_deleteUser {st : Store} {id : Nat} {b : Bool} {st' : Store}
    (h : Uniq st) (hc : deleteUser st id = (b, st')) : Uniq st' := by
  simp only [deleteUser] at hc
  split at hc
  · injection hc with h1 h2
    subst h2
    exact ⟨List.Nodup.sublist ((List.filter_sublist _).map _) h.1,
           List.Nodup.sublist ((List.filter_sublist _).map _) h.2.1, h.2.2⟩
  · injection hc with h1 h2
    subst h2
    exact h

theorem uniq_createProduct {now : Nat} {st : Store} {p : ProductData}
    {r : ProductRow} {st' : Store} (h : Uniq st)
    (hc : createProduct now st p = (.ok r, st')) : Uniq st' := by
  simp only [createProduct] at hc
  split at hc
  · exact absurd (congrArg Prod.fst hc) (by simp)
  · rename_i hd
    injection hc with h1 h2
    subst h2
    refine ⟨h.1, h.2.1, ?_⟩
    show ((st.products ++ [(⟨st.nextProductId, p, now, now⟩ : ProductRow)]).map
      (fun r => r.data.sku)).Nodup
    rw [List.map_append, List.nodup_append]
    exact ⟨h.2.2, List.nodup_singleton _, List.disjoint_singleton.mpr hd⟩

theorem uniq_updateProduct {now : Nat} {st : Store} {id : Nat}
    {updates : List (ProductKey × Val)} {res : Option ProductRow} {st' : Store}
    (h : Uniq st) (hc : updateProduct now st id updates = (.ok res, st')) :
    Uniq st' := by
  simp only [updateProduct] at hc
  split at hc
  · injection hc with h1 h2
    subst h2
    exact h
  · split at hc
    · exact absurd (congrArg Prod.fst hc) (by simp)
    · split at hc
      · exact absurd (congrArg Prod.fst hc) (by simp)
      · split at hc
        · rename_i hcond
          injection hc with h1 h2
          subst h2
          exact ⟨h.1, h.2.1, hcond⟩
        · exact absurd (congrArg Prod.fst hc) (by simp)

theorem uniq_deleteProduct {st : Store} {id : Nat} {b : Bool} {st' : Store}
    (h : Uniq st) (hc : deleteProduct st id = (b, st')) : Uniq st' := by
  simp only [deleteProduct] at hc
  split at hc
  · injection hc with h1 h2
    subst h2
    exact ⟨h.1, h.2.1, List.Nodup.sublist ((List.filter_sublist _).map _) h.2.2⟩
  · injection hc with h1 h2
    subst h2
    exact h

theorem uniq_createOrder {now : Nat} {st : Store} {o : OrderInput}
    {r : OrderRow} {st' : Store} (h : Uniq st)
    (hc : createOrder now st o = (.ok r, st')) : Uniq st' := by
  simp only [createOrder] at hc
  split at hc
  · exact absurd (congrArg Prod.fst hc) (by simp)
  · split at hc
    · exact absurd (congrArg Prod.fst hc) (by simp)
    · injection hc with h1 h2
      subst h2
      exact ⟨h.1, h.2.1, h.2.2⟩

theorem uniq_updateOrderStatus {now : Nat} {st : Store} {id : Nat}
    {status : OrderStatus} {r : OrderRow} {st' : Store} (h : Uniq st)
    (hc : updateOrderStatus now st id status = (.ok r, st')) : Uniq st' := by
  simp only [updateOrderStatus] at hc
  split at hc
  · exact absurd (congrArg Prod.fst hc) (by simp)
  · injection hc with h1 h2
    subst h2
    exact ⟨h.1, h.2.1, h.2.2⟩

theorem uniq_deleteOrder {st : Store} {id : Nat} {b : Bool} {st' : Store}
    (h : Uniq st) (hc : deleteOrder st id = (b, st')) : Uniq st' := by
  simp only [deleteOrder] at hc
  split at hc <;> (injection hc with h1 h2; subst h2)
  · exact ⟨h.1, h.2.1, h.2.2⟩
  · exact h

theorem uniq_addOrderItem {st : Store} {it : OrderItemInput}
    {r : OrderItemRow} {st' : Store} (h : Uniq st)
    (hc : addOrderItem st it = (.ok r, st')) : Uniq st' := by
  simp only [addOrderItem] at hc
  split at hc
  · exact absurd (congrArg Prod.fst hc) (by simp)
  · injection hc with h1 h2
    subst h2
    exact ⟨h.1, h.2.1, h.2.2⟩

theorem uniq_removeOrderItem {st : Store} {id : Nat} {b : Bool} {st' : Store}
    (h : Uniq st) (hc : removeOrderItem st id = (b, st')) : Uniq st' := by
  simp only [removeOrderItem] at hc
  split at hc <;> (injection hc with h1 h2; subst h2)
  · exact ⟨h.1, h.2.1, h.2.2⟩
  · exact h

/-- C6: in every reachable store state no two users share a username or an
email and no two products share a sku; a create duplicating an existing
natural key fails with the thrown store-level duplicate-key error, leaving
the store unchanged. -/
theorem C6_unique_natural_keys :
    (∀ st, Reachable st → Uniq st) ∧
    (∀ (now : Nat) (st : Store) (u : UserData),
      (∃ r ∈ st.users, r.data.username = u.username ∨ r.data.email = u.email) →
      createUser now st u =
        (.error "duplicate key value violates unique constraint", st)) ∧
    (∀ (now : Nat) (st : Store) (p : ProductData),
      (∃ r ∈ st.products, r.data.sku = p.sku) →
      createProduct now st p =
        (.error "duplicate key value violates unique constraint", st)) := by
  refine ⟨?_, ?_, ?_⟩
  · intro st hst
    induction hst with
    | empty => exact uniq_emptyStore
    | createUserStep _ hstep ih => exact uniq_createUser ih hstep
    | updateUserStep _ hstep ih => exact uniq_updateUser ih hstep
    | deleteUserStep _ hstep ih => exact uniq_deleteUser ih hstep
    | createProductStep _ hstep ih => exact uniq_createProduct ih hstep
    | updateProductStep _ hstep ih => exact uniq_updateProduct ih hstep
    | deleteProductStep _ hstep ih => exact uniq_deleteProduct ih hstep
    | createOrderStep _ hstep ih => exact uniq_createOrder ih hstep
    | updateOrderStatusStep _ hstep ih => exact uniq_updateOrderStatus ih hstep
    | deleteOrderStep _ hstep ih => exact uniq_deleteOrder ih hstep
    | addOrderItemStep _ hstep ih => exact uniq_addOrderItem ih hstep
    | removeOrderItemStep _ hstep ih => exact uniq_removeOrderItem ih hstep
  · intro now st u hex
    obtain ⟨r, hr, hor⟩ := hex
    have hd : u.username ∈ usernames st ∨ u.email ∈ emails st := by
      rcases hor with hh | hh
      · exact Or.inl (List.mem_map.mpr ⟨r, hr, hh⟩)
      · exact Or.inr (List.mem_map.mpr ⟨r, hr, hh⟩)
    simp only [createUser]
    rw [if_pos hd]
  · intro now st p hex
    obtain ⟨r, hr, hsku⟩ := hex
    have hd : p.sku ∈ skus st := List.mem_map.mpr ⟨r, hr, hsku⟩
    simp only [createProduct]
    rw [if_pos hd]

/-- C6 witness: the one-user store st1 is reachable and satisfies the
invariant, and a create re-using the username bob fails with the
duplicate-key error, leaving the store unchanged. -/
theorem C6_witness :
    Uniq st1 ∧
    createUser 0 st1 dupBob =
      (.error "duplicate key value violates unique constraint", st1) :=
  ⟨C6_unique_natural_keys.1 st1
      (@Reachable.createUserStep 0 emptyStore bobData bobRow st1
        Reachable.empty (by decide)),
   C6_unique_natural_keys.2.1 0 st1 dupBob
      ⟨bobRow, List.mem_singleton.mpr rfl, Or.inl rfl⟩⟩

/-! ## C1 helper lemmas -/

theorem UserData.get_set (u : UserData) (c c' : UserCol) (v : String) :
    (u.set c v).get c' = if c' = c then v else u.get c' := by
  cases c <;> cases c' <;> simp [UserData.set, UserData.get]

theorem applyUserSet_get_of_not_mem :
    ∀ (assigns : List (UserKey × String)) (u : UserData) (c : UserCol),
      (∀ v, (UserKey.col c, v) ∉ assigns) →
      (applyUserSet u assigns).get c = u.get c := by
  intro assigns
  induction assigns with
  | nil => intro u c _; rfl
  | cons p rest ih =>
      intro u c hc
      obtain ⟨k, v0⟩ := p
      cases k with
      | col c0 =>
          have hne : c ≠ c0 := by
            intro hcc
            subst hcc
            exact hc v0 (List.mem_cons_self _ _)
          show (applyUserSet (u.set c0 v0) rest).get c = u.get c
          rw [ih (u.set c0 v0) c (fun v hv => hc v (List.mem_cons_of_mem _ hv)),
            UserData.get_set, if_neg hne]
      | id =>
          exact ih u c (fun v hv => hc v (List.mem_cons_of_mem _ hv))
      | created_at =>
          exact ih u c (fun v hv => hc v (List.mem_cons_of_mem _ hv))
      | updated_at =>
          exact ih u c (fun v hv => hc v (List.mem_cons_of_mem _ hv))

theorem applyUserSet_get_of_mem :
    ∀ (assigns : List (UserKey × String)) (u : UserData) (c : UserCol) (v : String),
      (assigns.map Prod.fst).Nodup →
      (UserKey.col c, v) ∈ assigns →
      (applyUserSet u assigns).get c = v := by
  intro assigns
  induction assigns with
  | nil => intro u c v _ hmem; cases hmem
  | cons p rest ih =>
      intro u c v hnd hmem
      obtain ⟨k, v0⟩ := p
      rcases List.mem_cons.mp hmem with heq | htail
      · injection heq with hk hv
        subst hk
        subst hv
        have hrest : ∀ v', (UserKey.col c, v') ∉ rest := by
          intro v' hv'
          have : UserKey.col c ∈ rest.map Prod.fst :=
            List.mem_map.mpr ⟨(UserKey.col c, v'), hv', rfl⟩
          exact (List.nodup_cons.mp (by simpa using hnd)).1 this
        show (applyUserSet (u.set c v) rest).get c = v
        rw [applyUserSet_get_of_not_mem rest (u.set c v) c hrest,
          UserData.get_set, if_pos rfl]
      · have hnd' : (rest.map Prod.fst).Nodup := (List.nodup_cons.mp (by simpa using hnd)).2
        cases k with
        | col c0 => exact ih (u.set c0 v0) c v hnd' htail
        | id => exact ih u c v hnd' htail
        | created_at => exact ih u c v hnd' htail
        | updated_at => exact ih u c v hnd' htail

theorem zip_map_fst_snd {α β : Type} : ∀ (l : List (α × β)),
    (l.map Prod.fst).zip (l.map Prod.snd) = l := by
  intro l
  induction l with
  | nil => rfl
  | cons p rest ih =>
      cases p
      simp [ih]

theorem ProductData.getCol_setCol :
    ∀ {p p' : ProductData} (c : ProductCol) (v : Val),
      p.setCol c v = some p' → p'.getCol c = v := by
  intro p p' c v h
  cases c <;> cases v
  all_goals first
    | exact Option.noConfusion h
    | (injection h with h2; subst h2; rfl)
    | (rename_i q
       by_cases hq : q.den = 1
       · rw [show p.setCol ProductCol.stock_quantity (Val.num q) =
             (if q.den = 1 then some { p with stock_quantity := q.num } else none)
             from rfl, if_pos hq] at h
         injection h with h2
         subst h2
         exact congrArg Val.num ((Rat.den_eq_one_iff q).mp hq)
       · rw [show p.setCol ProductCol.stock_quantity (Val.num q) =
             (if q.den = 1 then some { p with stock_quantity := q.num } else none)
             from rfl, if_neg hq] at h
         exact Option.noConfusion h)

theorem ProductData.getCol_setCol_ne :
    ∀ {p p' : ProductData} (c c' : ProductCol) (v : Val),
      p.setCol c v = some p' → c' ≠ c → p'.getCol c' = p.getCol c' := by
  intro p p' c c' v h hne
  cases c <;> cases v
  all_goals first
    | exact Option.noConfusion h
    | (injection h with h2; subst h2; cases c' <;> first
        | exact absurd rfl hne
        | rfl)
    | (rename_i q
       by_cases hq : q.den = 1
       · rw [show p.setCol ProductCol.stock_quantity (Val.num q) =
             (if q.den = 1 then some { p with stock_quantity := q.num } else none)
             from rfl, if_pos hq] at h
         injection h with h2
         subst h2
         cases c' <;> first
           | exact absurd rfl hne
           | rfl
       · rw [show p.setCol ProductCol.stock_quantity (Val.num q) =
             (if q.den = 1 then some { p with stock_quantity := q.num } else none)
             from rfl, if_neg hq] at h
         exact Option.noConfusion h)

theorem applyProductSet_getCol_of_not_mem :
    ∀ (assigns : List (ProductKey × Val)) (p d : ProductData) (c : ProductCol),
      applyProductSet p assigns = some d →
      (∀ v, (ProductKey.col c, v) ∉ assigns) →
      d.getCol c = p.getCol c := by
  intro assigns
  induction assigns with
  | nil =>
      intro p d c h _
      injection h with h2
      subst h2
      rfl
  | cons q rest ih =>
      intro p d c h hc
      obtain ⟨k, v0⟩ := q
      cases k with
      | col c0 =>
          have hne : c ≠ c0 := by
            intro hcc
            subst hcc
            exact hc v0 (List.mem_cons_self _ _)
          have hstep : applyProductSet p ((ProductKey.col c0, v0) :: rest) =
              (match p.setCol c0 v0 with
               | some p1 => applyProductSet p1 rest
               | none => none) := rfl
          rw [hstep] at h
          cases hset : p.setCol c0 v0 with
          | none => rw [hset] at h; exact Option.noConfusion h
          | some p1 =>
              rw [hset] at h
              rw [ih p1 d c h (fun v hv => hc v (List.mem_cons_of_mem _ hv))]
              exact ProductData.getCol_setCol_ne c0 c v0 hset hne
      | id => exact ih p d c h (fun v hv => hc v (List.mem_cons_of_mem _ hv))
      | created_at => exact ih p d c h (fun v hv => hc v (List.mem_cons_of_mem _ hv))
      | updated_at => exact ih p d c h (fun v hv => hc v (List.mem_cons_of_mem _ hv))

theorem applyProductSet_getCol_of_mem :
    ∀ (assigns : List (ProductKey × Val)) (p d : ProductData) (c : ProductCol) (v : Val),
      (assigns.map Prod.fst).Nodup →
      applyProductSet p assigns = some d →
      (ProductKey.col c, v) ∈ assigns →
      d.getCol c = v := by
  intro assigns
  induction assigns with
  | nil => intro p d c v _ _ hmem; cases hmem
  | cons q rest ih =>
      intro p d c v hnd h hmem
      obtain ⟨k, v0⟩ := q
      rcases List.mem_cons.mp hmem with heq | htail
      · injection heq with hk hv
        subst hk
        subst hv
        have hstep : applyProductSet p ((ProductKey.col c, v) :: rest) =
            (match p.setCol c v with
             | some p1 => applyProductSet p1 rest
             | none => none) := rfl
        rw [hstep] at h
        cases hset : p.setCol c v with
        | none => rw [hset] at h; exact Option.noConfusion h
        | some p1 =>
            rw [hset] at h
            have hrest : ∀ v', (ProductKey.col c, v') ∉ rest := by
              intro v' hv'
              have : ProductKey.col c ∈ rest.map Prod.fst :=
                List.mem_map.mpr ⟨(ProductKey.col c, v'), hv', rfl⟩
              exact (List.nodup_cons.mp (by simpa using hnd)).1 this
            rw [applyProductSet_getCol_of_not_mem rest p1 d c h hrest]
            exact ProductData.getCol_setCol c v hset
      · have hnd' : (rest.map Prod.fst).Nodup := (List.nodup_cons.mp (by simpa using hnd)).2
        cases k with
        | col c0 =>
            have hstep : applyProductSet p ((ProductKey.col c0, v0) :: rest) =
                (match p.setCol c0 v0 with
                 | some p1 => applyProductSet p1 rest
                 | none => none) := rfl
            rw [hstep] at h
            cases hset : p.setCol c0 v0 with
            | none => rw [hset] at h; exact Option.noConfusion h
            | some p1 =>
                rw [hset] at h
                exact ih p1 d c v hnd' h htail
        | id => exact ih p d c v hnd' h htail
        | created_at => exact ih p d c v hnd' h htail
        | updated_at => exact ih p d c v hnd' h htail

theorem mapM_option_exists {α β : Type} (f : α → Option β) :
    ∀ (l : List α) (l' : List β), l.mapM f = some l' →
      ∀ x ∈ l, ∃ y, f x = some y := by
  intro l
  induction l with
  | nil => intro l' _ x hx; cases hx
  | cons a rest ih =>
      intro l' hmap x hx
      rw [List.mapM_cons] at hmap
      cases hfa : f a with
      | none => rw [hfa] at hmap; exact Option.noConfusion hmap
      | some b =>
          rw [hfa] at hmap
          cases hrest : rest.mapM f with
          | none =>
              rw [hrest] at hmap
              exact Option.noConfusion hmap
          | some bs =>
              rw [hrest] at hmap
              rcases List.mem_cons.mp hx with rfl | hx'
              · exact ⟨b, hfa⟩
              · exact ih bs hrest x hx'

theorem mapM_option_mem {α : Type} (f : α → Option α) :
    ∀ (l : List α) (l' : List α), l.mapM f = some l' →
      ∀ x ∈ l, f x = some x → x ∈ l' := by
  intro l
  induction l with
  | nil => intro l' _ x hx; cases hx
  | cons a rest ih =>
      intro l' hmap x hx hfx
      rw [List.mapM_cons] at hmap
      cases hfa : f a with
      | none => rw [hfa] at hmap; exact Option.noConfusion hmap
      | some b =>
          rw [hfa] at hmap
          cases hrest : rest.mapM f with
          | none =>
              rw [hrest] at hmap
              exact Option.noConfusion hmap
          | some bs =>
              rw [hrest] at hmap
              have hl' : l' = b :: bs := by
                injection hmap with h2
                exact h2.symm
              subst hl'
              rcases List.mem_cons.mp hx with rfl | hx'
              · rw [hfx] at hfa
                injection hfa with hb
                subst hb
                exact List.mem_cons_self _ _
              · exact List.mem_cons_of_mem _ (ih bs hrest x hx' hfx)

theorem mapM_option_find {α : Type} (f : α → Option α) (p : α → Bool)
    (hp : ∀ x y, f x = some y → p y = p x) :
    ∀ (l : List α) (l' : List α), l.mapM f = some l' →
      l'.find? p = (l.find? p).bind f := by
  intro l
  induction l with
  | nil =>
      intro l' hmap
      rw [List.mapM_nil] at hmap
      injection hmap with h2
      subst h2
      rfl
  | cons a rest ih =>
      intro l' hmap
      rw [List.mapM_cons] at hmap
      cases hfa : f a with
      | none => rw [hfa] at hmap; exact Option.noConfusion hmap
      | some b =>
          rw [hfa] at hmap
          cases hrest : rest.mapM f with
          | none =>
              rw [hrest] at hmap
              exact Option.noConfusion hmap
          | some bs =>
              rw [hrest] at hmap
              have hl' : l' = b :: bs := by
                injection hmap with h2
                exact h2.symm
              subst hl'
              by_cases hpa : p a = true
              · rw [List.find?_cons_of_pos _ (by rw [hp a b hfa]; exact hpa),
                  List.find?_cons_of_pos _ hpa]
                simp [hfa]
              · rw [List.find?_cons_of_neg _ (by rw [hp a b hfa]; exact hpa),
                  List.find?_cons_of_neg _ hpa]
                exact ih bs hrest

theorem userRowUpdate_id (now id : Nat) (assigns : List (UserKey × String))
    (r : UserRow) : (userRowUpdate now id assigns r).id = r.id := by
  unfold userRowUpdate
  split <;> rfl

theorem userRowUpdate_of_ne (now id : Nat) (assigns : List (UserKey × String))
    (r : UserRow) (h : r.id ≠ id) : userRowUpdate now id assigns r = r := by
  unfold userRowUpdate
  rw [if_neg (by simpa using h)]

theorem userRowUpdate_of_eq (now id : Nat) (assigns : List (UserKey × String))
    (r : UserRow) (h : (r.id == id) = true) :
    userRowUpdate now id assigns r =
      { r with data := applyUserSet r.data assigns, updated_at := now } := by
  unfold userRowUpdate
  rw [if_pos h]

theorem productRowUpdate_id (now id : Nat) (assigns : List (ProductKey × Val))
    (r y : ProductRow) (h : productRowUpdate now id assigns r = some y) :
    y.id = r.id := by
  unfold productRowUpdate at h
  split at h
  · obtain ⟨d, _, hd⟩ := Option.map_eq_some'.mp h
    rw [← hd]
  · injection h with h2
    rw [← h2]

theorem productRowUpdate_of_ne (now id : Nat) (assigns : List (ProductKey × Val))
    (r : ProductRow) (h : r.id ≠ id) : productRowUpdate now id assigns r = some r := by
  unfold productRowUpdate
  rw [if_neg (by simpa using h)]

/-! ## C1 -/

/-- C1 (amended): a partial update through `DatabaseService.updateUser` or
`DatabaseService.updateProduct` that supplies a nonempty subset of data
fields (none of id, created_at, updated_at) sets exactly the supplied
fields and additionally `updated_at`, which becomes the statement
timestamp; every other field of the stored record keeps its prior value,
id and created_at included, and every other row is untouched. The RPC
variant `GrpcService.updateUser` performs no partial merge: every user
field the update object does not supply is sent as the empty string. -/
theorem C1_partial_update_frame :
    (∀ (now : Nat) (st : Store) (id : Nat) (updates : List (UserKey × String))
       (u : UserRow) (res : Option UserRow) (st' : Store),
       getUserById st id = some u →
       (updates.map Prod.fst).Nodup →
       (∀ k ∈ updates.map Prod.fst, ∃ c, k = UserKey.col c) →
       updates ≠ [] →
       updateUser now st id updates = (.ok res, st') →
       ∃ r, res = some r ∧
         getUserById st' id = some r ∧
         r.id = u.id ∧ r.created_at = u.created_at ∧ r.updated_at = now ∧
         (∀ c v, (UserKey.col c, v) ∈ updates → r.data.get c = v) ∧
         (∀ c, (∀ v, (UserKey.col c, v) ∉ updates) → r.data.get c = u.data.get c) ∧
         (∀ w ∈ st.users, w.id ≠ id → w ∈ st'.users)) ∧
    (∀ (now : Nat) (st : Store) (id : Nat) (updates : List (ProductKey × Val))
       (u : ProductRow) (res : Option ProductRow) (st' : Store),
       getProductById st id = some u →
       (updates.map Prod.fst).Nodup →
       (∀ k ∈ updates.map Prod.fst, ∃ c, k = ProductKey.col c) →
       updates ≠ [] →
       updateProduct now st id updates = (.ok res, st') →
       ∃ r, res = some r ∧
         getProductById st' id = some r ∧
         r.id = u.id ∧ r.created_at = u.created_at ∧ r.updated_at = now ∧
         (∀ c v, (ProductKey.col c, v) ∈ updates → r.data.getCol c = v) ∧
         (∀ c, (∀ v, (ProductKey.col c, v) ∉ updates) →
           r.data.getCol c = u.data.getCol c) ∧
         (∀ w ∈ st.products, w.id ≠ id → w ∈ st'.products)) ∧
    (∀ (id : Nat) (updates : List (String × JVal)) (k : String),
       k ∈ grpcUserFieldNames → jlookup updates k = none →
       jlookup (grpcUpdateUserRequest id updates) k = some (JVal.str "")) := by
  refine ⟨?_, ?_, ?_⟩
  · intro now st id updates u res st' hfind hnd hcols hne hok
    have hfields : userUpdateFields updates = updates.map Prod.fst := by
      apply List.filter_eq_self.mpr
      intro k hk
      obtain ⟨c, rfl⟩ := hcols k hk
      rfl
    have hvalues : userUpdateValues updates = updates.map Prod.snd := by
      unfold userUpdateValues
      rw [hfields, List.length_map, ← List.length_map updates Prod.snd]
      exact List.take_length _
    have hc1 : ¬((updates.map Prod.fst).isEmpty = true) := by
      cases updates with
      | nil => exact absurd rfl hne
      | cons a l => simp
    have hc2 : UserKey.updated_at ∉ updates.map Prod.fst := by
      intro hmem
      obtain ⟨c, hc⟩ := hcols _ hmem
      exact UserKey.noConfusion hc
    have hfindL : st.users.find? (fun r => r.id == id) = some u := hfind
    simp only [updateUser] at hok
    rw [hfields, hvalues, zip_map_fst_snd, if_neg hc1, if_neg hc2] at hok
    split at hok
    · rename_i hcond
      injection hok with h1 h2
      injection h1 with h1'
      subst h2
      subst h1'
      have huid : (u.id == id) = true :=
        List.find?_some (p := fun r : UserRow => r.id == id) hfindL
      have hupd : userRowUpdate now id updates u =
          { u with data := applyUserSet u.data updates, updated_at := now } :=
        userRowUpdate_of_eq now id updates u huid
      refine ⟨{ u with data := applyUserSet u.data updates, updated_at := now },
        ?_, ?_, rfl, rfl, rfl, ?_, ?_, ?_⟩
      · rw [hfind, Option.map_some', hupd]
      · show ((st.users.map (userRowUpdate now id updates)).find?
          (fun r => r.id == id)) = _
        rw [List.find?_map]
        have hcomp : ((fun r : UserRow => r.id == id) ∘ userRowUpdate now id updates) =
            (fun r : UserRow => r.id == id) := by
          funext w
          show ((userRowUpdate now id updates w).id == id) = (w.id == id)
          rw [userRowUpdate_id]
        rw [hcomp, hfindL, Option.map_some', hupd]
      · intro c v hmem
        exact applyUserSet_get_of_mem updates u.data c v hnd hmem
      · intro c hcnot
        exact applyUserSet_get_of_not_mem updates u.data c hcnot
      · intro w hw hwid
        exact List.mem_map.mpr ⟨w, hw, userRowUpdate_of_ne now id updates w hwid⟩
    · exact absurd (congrArg Prod.fst hok) (by simp)
  · intro now st id updates u res st' hfind hnd hcols hne hok
    have hfields : productUpdateFields updates = updates.map Prod.fst := by
      apply List.filter_eq_self.mpr
      intro k hk
      obtain ⟨c, rfl⟩ := hcols k hk
      rfl
    have hvalues : productUpdateValues updates = updates.map Prod.snd := by
      unfold productUpdateValues
      rw [hfields, List.length_map, ← List.length_map updates Prod.snd]
      exact List.take_length _
    have hc1 : ¬((updates.map Prod.fst).isEmpty = true) := by
      cases updates with
      | nil => exact absurd rfl hne
      | cons a l => simp
    have hc2 : ProductKey.updated_at ∉ updates.map Prod.fst := by
      intro hmem
      obtain ⟨c, hc⟩ := hcols _ hmem
      exact ProductKey.noConfusion hc
    have hfindL : st.products.find? (fun r => r.id == id) = some u := hfind
    simp only [updateProduct] at hok
    rw [hfields, hvalues, zip_map_fst_snd, if_neg hc1, if_neg hc2] at hok
    split at hok
    · exact absurd (congrArg Prod.fst hok) (by simp)
    · rename_i newProducts hmap
      split at hok
      · rename_i hcond
        injection hok with h1 h2
        injection h1 with h1'
        subst h2
        subst h1'
        have huid : (u.id == id) = true :=
          List.find?_some (p := fun r : ProductRow => r.id == id) hfindL
        have humem : u ∈ st.products := List.mem_of_find?_eq_some hfindL
        obtain ⟨y, hy⟩ :=
          mapM_option_exists (productRowUpdate now id updates)
            st.products newProducts hmap u humem
        have hy' := hy
        unfold productRowUpdate at hy'
        rw [if_pos huid] at hy'
        obtain ⟨d, hd, hyd⟩ := Option.map_eq_some'.mp hy'
        subst hyd
        refine ⟨{ u with data := d, updated_at := now },
          ?_, ?_, ?_, rfl, rfl, ?_, ?_, ?_⟩
        · rw [hfind]
          exact hy
        · show newProducts.find? (fun r => r.id == id) = _
          rw [mapM_option_find (productRowUpdate now id updates)
              (fun r => r.id == id)
              (fun x y' hxy => by
                show (y'.id == id) = (x.id == id)
                rw [productRowUpdate_id now id updates x y' hxy])
              st.products newProducts hmap,
            hfindL]
          exact hy
        · exact productRowUpdate_id now id updates u _ hy
        · intro c v hmem
          exact applyProductSet_getCol_of_mem updates u.data d c v hnd hd hmem
        · intro c hcnot
          exact applyProductSet_getCol_of_not_mem updates u.data d c hd hcnot
        · intro w hw hwid
          exact mapM_option_mem (productRowUpdate now id updates)
            st.products newProducts hmap w hw
            (productRowUpdate_of_ne now id updates w hwid)
      · exact absurd (congrArg Prod.fst hok) (by simp)
  · intro id updates k hk hnone
    simp [grpcUserFieldNames] at hk
    rcases hk with rfl | rfl | rfl | rfl | rfl | rfl | rfl | rfl | rfl | rfl | rfl <;>
      (show some (jsOr (jlookup updates _) (JVal.str "")) = some (JVal.str "")
       rw [hnone]
       exact rfl)

/-- C1 witness: concrete partial updates (first_name on a one-user store,
price on a one-product store) and a concrete RPC update request. -/
theorem C1_witness :
    (∃ r, (some bobRowPatched : Option UserRow) = some r ∧
      getUserById st1Patched 1 = some r ∧
      r.id = bobRow.id ∧ r.created_at = bobRow.created_at ∧ r.updated_at = 5 ∧
      (∀ c v, (UserKey.col c, v) ∈ [(UserKey.col UserCol.first_name, "X")] →
        r.data.get c = v) ∧
      (∀ c, (∀ v, (UserKey.col c, v) ∉ [(UserKey.col UserCol.first_name, "X")]) →
        r.data.get c = bobRow.data.get c) ∧
      (∀ w ∈ st1.users, w.id ≠ 1 → w ∈ st1Patched.users)) ∧
    (∃ r, (some widgetRowPatched : Option ProductRow) = some r ∧
      getProductById stPPatched 1 = some r ∧
      r.id = widgetRow.id ∧ r.created_at = widgetRow.created_at ∧ r.updated_at = 7 ∧
      (∀ c v, (ProductKey.col c, v) ∈ [(ProductKey.col ProductCol.price, Val.num 42)] →
        r.data.getCol c = v) ∧
      (∀ c, (∀ v, (ProductKey.col c, v) ∉ [(ProductKey.col ProductCol.price, Val.num 42)]) →
        r.data.getCol c = widgetRow.data.getCol c) ∧
      (∀ w ∈ stP.products, w.id ≠ 1 → w ∈ stPPatched.products)) ∧
    jlookup (grpcUpdateUserRequest 1 [("first_name", JVal.str "X")]) "username" =
      some (JVal.str "") :=
  ⟨C1_partial_update_frame.1 5 st1 1 [(UserKey.col UserCol.first_name, "X")]
      bobRow (some bobRowPatched) st1Patched rfl (by decide)
      (by
        intro k hk
        simp at hk
        subst hk
        exact ⟨UserCol.first_name, rfl⟩)
      (by decide) (by decide),
   C1_partial_update_frame.2.1 7 stP 1 [(ProductKey.col ProductCol.price, Val.num 42)]
      widgetRow (some widgetRowPatched) stPPatched rfl (by decide)
      (by
        intro k hk
        simp at hk
        subst hk
        exact ⟨ProductCol.price, rfl⟩)
      (by decide) (by decide),
   C1_partial_update_frame.2.2 1 [("first_name", JVal.str "X")] "username"
      (by simp [grpcUserFieldNames]) rfl⟩

/-- C1 counterexample to the claim as stated: updating only first_name
changes the stored updated_at timestamp (an unspecified field), and the
RPC update request sends the unsupplied username as the empty string
rather than merging only the provided fields. -/
theorem C1_counterexample :
    (updateUser 5 st1 1 [(UserKey.col UserCol.first_name, "X")]).2.users.map
        (fun r => r.updated_at) ≠
      st1.users.map (fun r => r.updated_at) ∧
    jlookup (grpcUpdateUserRequest 1 [("first_name", JVal.str "X")]) "username" =
      some (JVal.str "") :=
  ⟨by decide, rfl⟩

/-- C3 witness: a concrete nonzero batch count actually used by the repo
(generateUsers 3 in GrpcService.createTestData) and two concrete distinct
suffixes at one concrete timestamp. -/
theorem C3_witness :
    (¬ List.Pairwise (fun a b => a ≠ b)
      ((generateUsers 3 ++ generateUsers 3).map (fun u => u.username))) ∧
    (generateSingleUser 1700000000000 "abc123").username ≠
      (generateSingleUser 1700000000000 "xyz789").username :=
  ⟨(C3_generator_cross_invocation_keys.2.1 3 (by decide)).1,
   ((C3_generator_cross_invocation_keys.2.2.2 1700000000000 "abc123" "xyz789").1).mpr
     (by decide)⟩

end ShipIn
